import Mathlib

/-!
Formal model of `src/midi_to_led.py` (class `MidiToLedController`):
MIDI-driven LED strip synchronization over a serial link.

The Python class is embedded shallowly:
* times and durations are rationals (`Time := ℚ`);
* the mutable object state (`note_active`, `led_states`, `ser`, `own_ser`)
  is the structure `CState`, updated by explicit state passing;
* the serial transport is modelled by `Transport`, which counts write
  attempts and can be told (fault injection) at which write attempt
  `ser.write` raises `SerialException`;
* each transmitted command is recorded abstractly as a `Cmd`
  (on/off flag and LED index); `command_line` renders the exact ASCII
  line the code writes;
* `play_midi` is the whole session: serial acquisition, duration
  pre-pass, the real-time event loop, the drain loop, and the
  `finally: cleanup()` teardown.  `RunOut.cleanups` counts how many
  times `cleanup` ran and `RunOut.error` is the exception (if any)
  escaping `play_midi`.
-/

namespace MidiToLed

abbrev Time := ℚ

/-- The construction-time parameters of `MidiToLedController.__init__`
(`midi_file`, `serial_port`, `ser`, `baud_rate`, `num_leds`,
`min_midi_note`, `max_midi_note`, `play_function`).  `serProvided`
records whether the optional `ser` argument was non-`None`;
`hasPlayFunction` whether a `play_function` callback was given. -/
structure Config where
  midi_file : String
  serial_port : String
  serProvided : Bool
  baud_rate : Nat
  num_leds : Nat
  min_midi_note : Nat
  max_midi_note : Nat
  hasPlayFunction : Bool
deriving DecidableEq

/-- The default construction arguments used in the `__main__` example. -/
def defaultConfig : Config :=
  { midi_file := "input1.mid"
    serial_port := "COM3"
    serProvided := false
    baud_rate := 115200
    num_leds := 142
    min_midi_note := 21
    max_midi_note := 108
    hasPlayFunction := false }

/-- The literal `key_to_led_map` dictionary (key 1-88 to LED 2-142,
entry 74 ↦ 144 excluded), in insertion order. -/
def key_to_led_map : List (Nat × Nat) :=
  [(1, 2), (2, 4), (3, 6), (4, 8), (5, 10), (6, 12), (7, 14), (8, 16), (9, 17), (10, 19),
   (11, 21), (12, 23), (13, 25), (14, 27), (15, 29), (16, 31), (17, 33), (18, 35), (19, 37), (20, 38),
   (21, 40), (22, 42), (23, 44), (24, 46), (25, 48), (26, 50), (27, 52), (28, 54), (29, 56), (30, 58),
   (31, 60), (32, 61), (33, 63), (34, 65), (35, 67), (36, 69), (37, 71), (38, 73), (39, 75), (40, 77),
   (41, 79), (42, 81), (43, 83), (44, 84), (45, 86), (46, 88), (47, 90), (48, 92), (49, 94), (50, 96),
   (51, 98), (52, 100), (53, 102), (54, 104), (55, 106), (56, 108), (57, 109), (58, 111), (59, 113), (60, 115),
   (61, 117), (62, 119), (63, 121), (64, 123), (65, 125), (66, 127), (67, 129), (68, 131), (69, 132), (70, 134),
   (71, 136), (72, 140), (73, 142)]

/-- Dictionary lookup `self.key_to_led_map[key]` / `key in self.key_to_led_map`. -/
def map_lookup (key : Nat) : Option Nat :=
  (key_to_led_map.find? (fun kv => kv.1 == key)).map (fun kv => kv.2)

/-- Method `midi_to_piano_key`: map MIDI note to piano key (1-88), `none` if out
of the configured `[min_midi_note, max_midi_note]` range. -/
def midi_to_piano_key (cfg : Config) (midi_note : Nat) : Option Nat :=
  if cfg.min_midi_note ≤ midi_note ∧ midi_note ≤ cfg.max_midi_note then
    some (midi_note - cfg.min_midi_note + 1)
  else none

/-- Method `piano_key_to_led`: map piano key to LED index (`map[key] - 2`),
`none` if the key is unmapped or the LED index is not below `num_leds`. -/
def piano_key_to_led (cfg : Config) (key : Nat) : Option Nat :=
  match map_lookup key with
  | some ledNum => if ledNum - 2 < cfg.num_leds then some (ledNum - 2) else none
  | none => none

/-- The composed pitch→channel lookup used by playback:
MIDI note → piano key → LED index. -/
def channel_for (cfg : Config) (midi_note : Nat) : Option Nat :=
  (midi_to_piano_key cfg midi_note).bind (piano_key_to_led cfg)

/-- One command written to the transport: the state it asserts and the
LED (channel) index it names. -/
structure Cmd where
  isOn : Bool
  index : Nat
deriving DecidableEq

/-- The exact ASCII line the code writes for a command:
`f"{'ON' if new_state else 'OFF'} {led_index}\n"`. -/
def command_line (c : Cmd) : String :=
  (if c.isOn then "ON" else "OFF") ++ " " ++ Nat.repr c.index ++ "\n"

/-- The serial transport, with fault injection: `writes` counts write
attempts so far; `failAt = some n` makes the `n`-th write attempt
(0-based) raise `SerialException`. -/
structure Transport where
  writes : Nat
  failAt : Option Nat
deriving DecidableEq

/-- One `ser.write` attempt: returns the transport after the attempt and
whether the write succeeded (`false` = the write raised). -/
def transport_write (tr : Transport) : Transport × Bool :=
  ({ tr with writes := tr.writes + 1 }, decide (tr.failAt ≠ some tr.writes))

/-- The mutable state of a `MidiToLedController` object:
`hasSer` = `self.ser is not None`; `serOpen` = `self.ser.is_open` of the
attached serial object (meaningful only when `hasSer`); `own_ser`;
`note_active` = per-piano-key list of `(start_time, duration)` pairs;
`led_states` = per-LED current transmitted state. -/
structure CState where
  hasSer : Bool
  serOpen : Bool
  own_ser : Bool
  note_active : Nat → List (Time × Time)
  led_states : List Bool

/-- Constructor `__init__`: state of a freshly constructed controller. -/
def initController (cfg : Config) : CState :=
  { hasSer := cfg.serProvided
    serOpen := cfg.serProvided
    own_ser := !cfg.serProvided
    note_active := fun _ => []
    led_states := List.replicate cfg.num_leds false }

/-- The interval filter used on `note_active[key]`:
`[(t, d) for t, d in ... if current_time < t + d]`. -/
def prune (current_time : Time) (l : List (Time × Time)) : List (Time × Time) :=
  l.filter (fun td => decide (current_time < td.1 + td.2))

/-- The list `keys_for_led` inside `update_led`:
`[k for k, v in self.key_to_led_map.items() if v - 2 == led_index and v - 2 < self.num_leds]`. -/
def keys_for_led (cfg : Config) (led_index : Nat) : List Nat :=
  (key_to_led_map.filter
    (fun kv => kv.2 - 2 == led_index && decide (kv.2 - 2 < cfg.num_leds))).map (fun kv => kv.1)

/-- Method `update_led(led_index, current_time)`: prunes the active intervals of
every key mapped to this LED, recomputes the OR of their liveness, and,
only if it differs from `led_states[led_index]`, records the new state
and writes one command.  Returns (new object state, transport, commands
actually transmitted, whether `ser.write` raised).  Note the Python
statement order: `led_states` is assigned *before* `ser.write`. -/
def update_led (cfg : Config) (s : CState) (tr : Transport)
    (led_index : Option Nat) (current_time : Time) :
    CState × Transport × List Cmd × Bool :=
  match led_index with
  | none => (s, tr, [], false)
  | some led =>
    let keys := keys_for_led cfg led
    let s1 : CState :=
      { s with note_active := fun k =>
          if k ∈ keys then prune current_time (s.note_active k) else s.note_active k }
    let new_state : Bool := keys.any (fun k => !(prune current_time (s.note_active k)).isEmpty)
    if new_state != s.led_states.getD led false then
      let s2 : CState := { s1 with led_states := s1.led_states.set led new_state }
      let (tr1, ok) := transport_write tr
      if ok then (s2, tr1, [⟨new_state, led⟩], false)
      else (s2, tr1, [], true)
    else (s1, tr, [], false)

/-- The type tag of a mido message, as tested by the code
(`msg.type == 'note_on'`, `'note_off'`, or anything else). -/
inductive MsgType where
  | note_on : MsgType
  | note_off : MsgType
  | other : MsgType
deriving DecidableEq

/-- One mido message: delta time since the previous message, type tag,
MIDI note number, and velocity. -/
structure Msg where
  time : Time
  type : MsgType
  note : Nat
  velocity : Nat
deriving DecidableEq

/-- Is this message the closing event the code recognises:
`msg.type == 'note_off' or (msg.type == 'note_on' and msg.velocity == 0)`. -/
def isClosing (msg : Msg) : Bool :=
  msg.type == .note_off || (msg.type == .note_on && msg.velocity == 0)

/-- Is this message an opening event: `note_on` with `velocity > 0`. -/
def isOpening (msg : Msg) : Bool :=
  msg.type == .note_on && decide (0 < msg.velocity)

/-- Python-dict insert-or-overwrite `d[k] = v` on an association list
(insertion order preserved; an existing key keeps its position). -/
def dinsert (k : Nat) (v : Time) (d : List (Nat × Time)) : List (Nat × Time) :=
  if d.any (fun kv => kv.1 == k) then
    d.map (fun kv => if kv.1 == k then (k, v) else kv)
  else d ++ [(k, v)]

/-- Python-dict `del d[k]`. -/
def dremove (k : Nat) (d : List (Nat × Time)) : List (Nat × Time) :=
  d.filter (fun kv => kv.1 != k)

/-- Python-dict lookup `d.get(k)` / `d[k]` / `k in d`. -/
def dget (k : Nat) (d : List (Nat × Time)) : Option Time :=
  (d.find? (fun kv => kv.1 == k)).map (fun kv => kv.2)

/-- The scan loop of `parse_midi_durations`: walks the messages
accumulating `current_time`, recording `note_starts[key]` on an opening
event and moving `current_time - note_starts[key]` into
`note_durations[key]` (and deleting the start) on a closing event whose
key is open.  State is `(current_time, note_starts, note_durations)`. -/
def parse_scan (cfg : Config) :
    List Msg → Time × List (Nat × Time) × List (Nat × Time) →
    Time × List (Nat × Time) × List (Nat × Time)
  | [], st => st
  | msg :: rest, (t, starts, durs) =>
    let t1 := t + msg.time
    if isOpening msg then
      match midi_to_piano_key cfg msg.note with
      | some key => parse_scan cfg rest (t1, dinsert key t1 starts, durs)
      | none => parse_scan cfg rest (t1, starts, durs)
    else if isClosing msg then
      match midi_to_piano_key cfg msg.note with
      | some key =>
        match dget key starts with
        | some st0 => parse_scan cfg rest (t1, dremove key starts, dinsert key (t1 - st0) durs)
        | none => parse_scan cfg rest (t1, starts, durs)
      | none => parse_scan cfg rest (t1, starts, durs)
    else parse_scan cfg rest (t1, starts, durs)

/-- Method `parse_midi_durations`: the Duration Table produced by the pre-pass
over the message list (assuming the file itself loaded). -/
def parse_midi_durations (cfg : Config) (msgs : List Msg) : List (Nat × Time) :=
  (parse_scan cfg msgs (0, [], [])).2.2

/-- The literal default duration in `note_durations.get(key, 0.1)`. -/
def default_duration : Time := 1 / 10

/-- The literal tick increment of the drain loop (`0.05` seconds). -/
def drain_tick : Time := 1 / 20

/-- The body of the playback loop for one message, at the already
advanced `current_time`: on an opening event append
`(current_time, duration)` (duration from the table, `0.1` fallback);
on a closing event prune that key's intervals; then
`update_led(piano_key_to_led(key), current_time)`.  Messages of other
types, and notes outside the configured range, are skipped. -/
def process_msg (cfg : Config) (durs : List (Nat × Time)) (s : CState) (tr : Transport)
    (msg : Msg) (current_time : Time) :
    CState × Transport × List Cmd × Bool :=
  if msg.type = MsgType.note_on ∨ msg.type = MsgType.note_off then
    match midi_to_piano_key cfg msg.note with
    | none => (s, tr, [], false)
    | some key =>
      let s1 : CState :=
        if isOpening msg then
          let duration := (dget key durs).getD default_duration
          { s with note_active := fun k =>
              if k = key then s.note_active key ++ [(current_time, duration)]
              else s.note_active k }
        else if isClosing msg then
          { s with note_active := fun k =>
              if k = key then prune current_time (s.note_active key)
              else s.note_active k }
        else s
      update_led cfg s1 tr (piano_key_to_led cfg key) current_time
  else (s, tr, [], false)

/-- Exceptions that can escape `play_midi`. -/
inductive Err where
  | serError : Err
  | loadError : Err
  | writeError : Err
  | cancelled : Err
deriving DecidableEq

/-- The `for msg in mid` playback loop, with cancellation injection:
`cancelAt = some i` raises `CancelledError` at the `await` before the
`i`-th remaining message.  A raising `ser.write` aborts the loop.
Returns (state, transport, commands sent, current_time, error). -/
def play_loop (cfg : Config) (durs : List (Nat × Time)) :
    List Msg → CState → Transport → Time → Option Nat →
    CState × Transport × List Cmd × Time × Option Err
  | [], s, tr, t, _ => (s, tr, [], t, none)
  | msg :: rest, s, tr, t, cancelAt =>
    if cancelAt = some 0 then (s, tr, [], t, some Err.cancelled)
    else
      let t1 := t + msg.time
      let (s1, tr1, cmds, raised) := process_msg cfg durs s tr msg t1
      if raised then (s1, tr1, cmds, t1, some Err.writeError)
      else
        let (s2, tr2, cmds2, t2, e) :=
          play_loop cfg durs rest s1 tr1 t1 (cancelAt.map (fun n => n - 1))
        (s2, tr2, cmds ++ cmds2, t2, e)

/-- The inner `for led_index in range(self.num_leds)` of a drain tick,
over the listed LED indices; a raising write aborts the sweep. -/
def update_leds_from (cfg : Config) :
    List Nat → CState → Transport → Time → CState × Transport × List Cmd × Bool
  | [], s, tr, _ => (s, tr, [], false)
  | led :: rest, s, tr, t =>
    let (s1, tr1, cmds, raised) := update_led cfg s tr (some led) t
    if raised then (s1, tr1, cmds, true)
    else
      let (s2, tr2, cmds2, r2) := update_leds_from cfg rest s1 tr1 t
      (s2, tr2, cmds ++ cmds2, r2)

/-- The drain loop, with its iteration count precomputed: each tick adds
`0.05` to `current_time` and updates every LED. -/
def drain_loop (cfg : Config) :
    Nat → CState → Transport → Time → CState × Transport × List Cmd × Time × Option Err
  | 0, s, tr, t => (s, tr, [], t, none)
  | n + 1, s, tr, t =>
    let t1 := t + drain_tick
    let (s1, tr1, cmds, raised) := update_leds_from cfg (List.range cfg.num_leds) s tr t1
    if raised then (s1, tr1, cmds, t1, some Err.writeError)
    else
      let (s2, tr2, cmds2, t2, e) := drain_loop cfg n s1 tr1 t1
      (s2, tr2, cmds ++ cmds2, t2, e)

/-- Python `max(note_durations.values(), default=0)`. -/
def values_max : List Time → Time
  | [] => 0
  | x :: xs => xs.foldl max x

/-- Number of iterations of `while current_time < end_time:
current_time += 0.05`. -/
def drain_count (current_time end_time : Time) : Nat :=
  if current_time < end_time then (⌈(end_time - current_time) / drain_tick⌉).toNat else 0

/-- Method `initialize_serial`: opens the port only when `self.ser is None`;
`serOk` injects whether `serial.Serial(...)` succeeds.  On success the
controller owns an open connection; on failure the exception is re-raised. -/
def initialize_serial (serOk : Bool) (s : CState) : CState × Bool :=
  if s.hasSer then (s, true)
  else if serOk then ({ s with hasSer := true, serOpen := true, own_ser := true }, true)
  else (s, false)

/-- The write sweep of `cleanup`: for each listed LED index with
`led_states[i]` true, write `OFF i`; a raising write aborts the sweep.
The controller state is read but never modified. -/
def cleanup_writes (cfg : Config) (s : CState) :
    List Nat → Transport → Transport × List Cmd × Bool
  | [], tr => (tr, [], false)
  | i :: rest, tr =>
    if s.led_states.getD i false then
      let (tr1, ok) := transport_write tr
      if ok then
        let (tr2, cmds, r) := cleanup_writes cfg s rest tr1
        (tr2, Cmd.mk false i :: cmds, r)
      else (tr1, [], true)
    else cleanup_writes cfg s rest tr

/-- Method `cleanup`: if a serial connection is attached and open, send `OFF i`
for every LED whose recorded state is on, then, if the connection is
owned, close it and drop the reference.  `led_states` is not modified.
Returns (state, transport, commands sent, whether a write raised). -/
def cleanup (cfg : Config) (s : CState) (tr : Transport) :
    CState × Transport × List Cmd × Bool :=
  if s.hasSer && s.serOpen then
    let (tr1, cmds, raised) := cleanup_writes cfg s (List.range cfg.num_leds) tr
    if raised then (s, tr1, cmds, true)
    else if s.own_ser then ({ s with serOpen := false, hasSer := false }, tr1, cmds, false)
    else (s, tr1, cmds, false)
  else (s, tr, [], false)

/-- The observable outcome of one `play_midi` call. -/
structure RunOut where
  state : CState
  tr : Transport
  trace : List Cmd
  cleanups : Nat
  error : Option Err

/-- Method `play_midi`: acquire the serial connection if absent (fatal on
failure), run the duration pre-pass (fatal on load failure — note both
happen before the `try`, so `cleanup` does not run on those paths),
then inside `try ... finally: cleanup()` replay the messages and drain
the remaining notes.  `loadOk` injects whether `mido.MidiFile` loads,
`serOk` whether the port opens, `cancelAt`/`failAt` inject cancellation
and a failing write. -/
def play_midi (cfg : Config) (msgs : List Msg) (loadOk serOk : Bool)
    (cancelAt : Option Nat) (failAt : Option Nat) : RunOut :=
  let s0 := initController cfg
  let tr0 : Transport := { writes := 0, failAt := failAt }
  let (s1, ok) := initialize_serial serOk s0
  if !ok then { state := s1, tr := tr0, trace := [], cleanups := 0, error := some Err.serError }
  else if !loadOk then
    { state := s1, tr := tr0, trace := [], cleanups := 0, error := some Err.loadError }
  else
    let durs := parse_midi_durations cfg msgs
    let (s2, tr2, cmds1, t1, err1) := play_loop cfg durs msgs s1 tr0 0 cancelAt
    let (s3, tr3, cmds2, err2) :=
      match err1 with
      | some e => (s2, tr2, ([] : List Cmd), some e)
      | none =>
        let max_duration := values_max (durs.map (fun kv => kv.2))
        let end_time := t1 + max_duration
        let (s3, tr3, cmds2, _, e) := drain_loop cfg (drain_count t1 end_time) s2 tr2 t1
        (s3, tr3, cmds2, e)
    let (s4, tr4, cmds3, craised) := cleanup cfg s3 tr3
    { state := s4
      tr := tr4
      trace := cmds1 ++ cmds2 ++ cmds3
      cleanups := 1
      error := if craised then some Err.writeError else err2 }

/-- The state asserted by the last command transmitted for channel `c`
in a trace (`none` if no command ever named `c`). -/
def last_sent (trace : List Cmd) (c : Nat) : Option Bool :=
  ((trace.filter (fun cmd => cmd.index == c)).getLast?).map Cmd.isOn

/-- The `new_state` computed inside `update_led`: the OR, over the keys
mapped to this LED, of "some recorded interval of that key is still
live at `current_time`". -/
def new_state_of (cfg : Config) (s : CState) (led : Nat) (t : Time) : Bool :=
  (keys_for_led cfg led).any fun k => !(prune t (s.note_active k)).isEmpty

/-- A small test configuration: a borrowed transport and a single LED
(key 1 ↦ LED number 2 ↦ index 0 is the only mapped key). -/
def cfgW : Config :=
  { midi_file := "input1.mid"
    serial_port := "COM3"
    serProvided := true
    baud_rate := 115200
    num_leds := 1
    min_midi_note := 21
    max_midi_note := 108
    hasPlayFunction := false }

/-- A small test state for `cfgW`: key 1 sounding on interval `(0, 1)`. -/
def sW : CState :=
  { hasSer := true
    serOpen := true
    own_ser := false
    note_active := fun k => if k = 1 then [(0, 1)] else []
    led_states := [false] }

/-- A transport with no injected fault. -/
def trW : Transport := { writes := 0, failAt := none }

/-- Two-message score: note 21 on at `t = 0`, off at `t = 1`. -/
def msgsW : List Msg := [⟨0, MsgType.note_on, 21, 64⟩, ⟨1, MsgType.note_off, 21, 0⟩]

/-- A five-LED borrowed-transport configuration (keys 1, 2, 3 map to
LED indices 0, 2, 4). -/
def cfgW5 : Config :=
  { midi_file := "input1.mid"
    serial_port := "COM3"
    serProvided := true
    baud_rate := 115200
    num_leds := 5
    min_midi_note := 21
    max_midi_note := 108
    hasPlayFunction := false }

/-- Two note-on messages on different keys (note 21 → LED 0, note 23 →
LED 4), neither ever closed. -/
def msgs7 : List Msg := [⟨0, MsgType.note_on, 21, 64⟩, ⟨1, MsgType.note_on, 23, 64⟩]

/-- A second, everywhere-different construction argument list (used to
exhibit that the fallback duration does not depend on construction
arguments). -/
def cfgW2 : Config :=
  { midi_file := "other.mid"
    serial_port := "/dev/ttyUSB0"
    serProvided := false
    baud_rate := 9600
    num_leds := 5
    min_midi_note := 1
    max_midi_note := 10
    hasPlayFunction := true }

/-- Does this message touch pitch `key` during the duration pre-pass:
it is an opening or closing event whose MIDI note maps to `key`. -/
def touches (cfg : Config) (key : Nat) (msg : Msg) : Bool :=
  (midi_to_piano_key cfg msg.note == some key) && (isOpening msg || isClosing msg)

/-- A sequence of `update_led` recomputations — the checks performed
during `Playing` (one per event, at the LED of the event's key) and
`Draining` (one per LED per tick) — folded over the controller state,
collecting every transmitted command. -/
def run_checks (cfg : Config) :
    List (Option Nat × Time) → CState → Transport → CState × Transport × List Cmd
  | [], s, tr => (s, tr, [])
  | (li, t) :: rest, s, tr =>
    let r := update_led cfg s tr li t
    let r2 := run_checks cfg rest r.1 r.2.1
    (r2.1, r2.2.1, r.2.2.1 ++ r2.2.2)

/-- The number of true state transitions channel `c` undergoes along a
sequence of checks. -/
def transitions (cfg : Config) (c : Nat) :
    List (Option Nat × Time) → CState → Transport → Nat
  | [], _, _ => 0
  | (li, t) :: rest, s, tr =>
    let r := update_led cfg s tr li t
    (if r.1.led_states.getD c false != s.led_states.getD c false then 1 else 0) +
      transitions cfg c rest r.1 r.2.1

/-- The tracking invariant of normal operation: for every channel, the
recorded `led_states` entry agrees with the state asserted by the last
transmitted command (with "off" for channels never commanded). -/
def TracksLastSent (s : CState) (trace : List Cmd) : Prop :=
  ∀ c, (last_sent trace c).getD false = s.led_states.getD c false

/-- The session invariant maintained from `Idle→Playing` up to the
teardown, on runs whose transport writes all succeed: the state vector
has one entry per configured channel, the transport is healthy, the
trace agrees with the tracked states, and the serial connection is
attached and open. -/
def Inv (cfg : Config) (s : CState) (tr : Transport) (trace : List Cmd) : Prop :=
  s.led_states.length = cfg.num_leds ∧ tr.failAt = none ∧
  TracksLastSent s trace ∧ s.hasSer = true ∧ s.serOpen = true

/-! ### Basic lemmas about the model's building blocks -/

lemma live_iff (t : Time) (l : List (Time × Time)) :
    (!(prune t l).isEmpty) = true ↔ ∃ td ∈ l, t < td.1 + td.2 := by
  simp [prune, List.isEmpty_iff, List.filter_eq_nil_iff]

lemma new_state_of_iff (cfg : Config) (s : CState) (led : Nat) (t : Time) :
    new_state_of cfg s led t = true ↔
      ∃ k ∈ keys_for_led cfg led, ∃ td ∈ s.note_active k, t < td.1 + td.2 := by
  simp only [new_state_of, List.any_eq_true, live_iff]

lemma update_led_fields (cfg : Config) (s : CState) (tr : Transport)
    (li : Option Nat) (t : Time) :
    (update_led cfg s tr li t).1.hasSer = s.hasSer ∧
    (update_led cfg s tr li t).1.serOpen = s.serOpen ∧
    (update_led cfg s tr li t).1.own_ser = s.own_ser := by
  rcases li with _ | led
  · exact ⟨rfl, rfl, rfl⟩
  · simp only [update_led, transport_write]
    split
    · split <;> exact ⟨rfl, rfl, rfl⟩
    · exact ⟨rfl, rfl, rfl⟩

lemma update_led_led_states (cfg : Config) (s : CState) (tr : Transport)
    (led : Nat) (t : Time) :
    (update_led cfg s tr (some led) t).1.led_states =
      (if new_state_of cfg s led t != s.led_states.getD led false then
        s.led_states.set led (new_state_of cfg s led t)
      else s.led_states) := by
  simp only [update_led, transport_write, new_state_of]
  split <;> [skip; rfl]
  split <;> rfl

lemma update_led_length (cfg : Config) (s : CState) (tr : Transport)
    (li : Option Nat) (t : Time) :
    (update_led cfg s tr li t).1.led_states.length = s.led_states.length := by
  rcases li with _ | led
  · rfl
  · rw [update_led_led_states]
    split <;> simp [List.length_set]

lemma update_led_cmds_ok (cfg : Config) (s : CState) (tr : Transport)
    (led : Nat) (t : Time) (hf : tr.failAt = none) :
    (update_led cfg s tr (some led) t).2.2.1 =
      (if new_state_of cfg s led t != s.led_states.getD led false then
        [⟨new_state_of cfg s led t, led⟩] else []) ∧
    (update_led cfg s tr (some led) t).2.2.2 = false ∧
    (update_led cfg s tr (some led) t).2.1.failAt = none := by
  simp only [update_led, transport_write, new_state_of, hf]
  split <;> simp [hf]

lemma update_led_raised_none (cfg : Config) (s : CState) (tr : Transport)
    (li : Option Nat) (t : Time) (hf : tr.failAt = none) :
    (update_led cfg s tr li t).2.2.2 = false ∧
    (update_led cfg s tr li t).2.1.failAt = none := by
  rcases li with _ | led
  · exact ⟨rfl, hf⟩
  · exact ⟨(update_led_cmds_ok cfg s tr led t hf).2.1,
      (update_led_cmds_ok cfg s tr led t hf).2.2⟩

lemma update_led_getD_self (cfg : Config) (s : CState) (tr : Transport)
    (led : Nat) (t : Time) (h : led < s.led_states.length) :
    (update_led cfg s tr (some led) t).1.led_states.getD led false =
      new_state_of cfg s led t := by
  rw [update_led_led_states]
  split
  · rw [List.getD_eq_getElem?_getD, List.getElem?_set_self h]
    rfl
  · rename_i hne
    rw [Bool.not_eq_true, bne_eq_false_iff_eq] at hne
    exact hne.symm

lemma update_led_getD_other (cfg : Config) (s : CState) (tr : Transport)
    (led c : Nat) (t : Time) (hne : c ≠ led) :
    (update_led cfg s tr (some led) t).1.led_states.getD c false =
      s.led_states.getD c false := by
  rw [update_led_led_states]
  split
  · rw [List.getD_eq_getElem?_getD, List.getElem?_set_ne (Ne.symm hne),
      ← List.getD_eq_getElem?_getD]
  · rfl

lemma map_keys_nodup : (key_to_led_map.map Prod.fst).Nodup := by decide

lemma find?_eq_of_mem_nodup {l : List (Nat × Nat)} (hnd : (l.map Prod.fst).Nodup)
    {k v : Nat} (hm : (k, v) ∈ l) :
    l.find? (fun kv => kv.1 == k) = some (k, v) := by
  induction l with
  | nil => cases hm
  | cons a l ih =>
    rcases List.mem_cons.mp hm with hm | hm
    · subst hm
      simp [List.find?_cons]
    · have hnd2 := hnd
      rw [List.map_cons, List.nodup_cons] at hnd2
      have ha : a.1 ≠ k := by
        intro hak
        exact hnd2.1 (hak.symm ▸ List.mem_map.mpr ⟨(k, v), hm, rfl⟩)
      simp only [List.find?_cons]
      have hbeq : (a.1 == k) = false := by simp [ha]
      simp [hbeq, ih hnd2.2 hm]

lemma mem_keys_for_led (cfg : Config) (led k : Nat) :
    k ∈ keys_for_led cfg led ↔ piano_key_to_led cfg k = some led := by
  constructor
  · intro hk
    obtain ⟨kv, hkv, hfst⟩ := List.mem_map.mp hk
    obtain ⟨hmem, hpred⟩ := List.mem_filter.mp hkv
    rw [Bool.and_eq_true, beq_iff_eq, decide_eq_true_eq] at hpred
    obtain ⟨kv1, kv2⟩ := kv
    simp only at hfst hpred
    subst hfst
    have hfind := find?_eq_of_mem_nodup map_keys_nodup hmem
    have hln : led < cfg.num_leds := hpred.1 ▸ hpred.2
    simp [piano_key_to_led, map_lookup, hfind, hpred.1, hln]
  · intro h
    unfold piano_key_to_led map_lookup at h
    cases hfind : key_to_led_map.find? (fun kv => kv.1 == k) with
    | none => rw [hfind] at h; simp at h
    | some kv =>
      rw [hfind] at h
      have hmem := List.mem_of_find?_eq_some hfind
      have hpk : kv.1 = k := by simpa using List.find?_some hfind
      first
      | simp only [Option.map_some] at h
      | simp only [Option.map_some'] at h
      split at h
      · rename_i hlt
        have hled : kv.2 - 2 = led := by simpa using h
        exact List.mem_map.mpr ⟨kv, List.mem_filter.mpr
          ⟨hmem, by simp [hled, hled ▸ hlt]⟩, hpk⟩
      · cases h

/-- Claim C1 (state-consistency invariant): at every checked instant — that
is, immediately after `update_led(c, t)` recomputes channel `c` at time
`t`, in both the `Playing` and the `Draining` phase — the recorded
channel state `led_states[c]` is on exactly when some pitch mapped to
`c` has an active interval `(start, duration)` with
`current_time < start + duration`. -/
theorem C1_state_consistency (cfg : Config) (s : CState) (tr : Transport)
    (led : Nat) (t : Time) (h : led < s.led_states.length) :
    ((update_led cfg s tr (some led) t).1.led_states.getD led false = true ↔
      ∃ key, piano_key_to_led cfg key = some led ∧
        ∃ td ∈ s.note_active key, t < td.1 + td.2) := by
  rw [update_led_getD_self cfg s tr led t h, new_state_of_iff]
  exact exists_congr fun k => and_congr_left' (mem_keys_for_led cfg led k)

/-- Witness for `C1_state_consistency`: with only key 1 mapped to LED 0
and key 1 holding the live interval `(0, 1)` at time `0`, the recomputed
`led_states[0]` is on, and the invariant instance holds. -/
theorem C1_state_consistency_witness :
    0 < sW.led_states.length ∧
    ((update_led cfgW sW trW (some 0) 0).1.led_states.getD 0 false = true ↔
      ∃ key, piano_key_to_led cfgW key = some 0 ∧
        ∃ td ∈ sW.note_active key, (0 : Time) < td.1 + td.2) :=
  ⟨by decide, C1_state_consistency cfgW sW trW 0 0 (by decide)⟩

lemma map_pairwise_mono :
    key_to_led_map.Pairwise (fun a b => a.1 < b.1 ∧ a.2 < b.2) := by decide

lemma map_values_ge_two : ∀ kv ∈ key_to_led_map, 2 ≤ kv.2 := by decide

lemma find?_assoc_mono {l : List (Nat × Nat)}
    (hp : l.Pairwise fun a b => a.1 < b.1 ∧ a.2 < b.2)
    {k1 k2 : Nat} {kv1 kv2 : Nat × Nat}
    (h1 : l.find? (fun kv => kv.1 == k1) = some kv1)
    (h2 : l.find? (fun kv => kv.1 == k2) = some kv2)
    (hk : k1 < k2) : kv1.2 < kv2.2 := by
  induction l with
  | nil => cases h1
  | cons a l ih =>
    rw [List.pairwise_cons] at hp
    rw [List.find?_cons] at h1 h2
    by_cases e1 : (a.1 == k1) = true <;> by_cases e2 : (a.1 == k2) = true
    · rw [beq_iff_eq] at e1 e2
      omega
    · rw [e1] at h1
      rw [Bool.not_eq_true] at e2
      rw [e2] at h2
      have hkv1 : kv1 = a := by simpa using h1.symm
      have hkv2 := List.mem_of_find?_eq_some h2
      exact hkv1 ▸ (hp.1 kv2 hkv2).2
    · rw [e2] at h2
      rw [Bool.not_eq_true] at e1
      rw [e1] at h1
      have hkv2 : kv2 = a := by simpa using h2.symm
      have hkv1m := List.mem_of_find?_eq_some h1
      have hk1 : kv1.1 = k1 := by simpa using List.find?_some h1
      have hk2 : a.1 = k2 := by simpa using e2
      have := (hp.1 kv1 hkv1m).1
      omega
    · rw [Bool.not_eq_true] at e1 e2
      rw [e1] at h1
      rw [e2] at h2
      exact ih hp.2 h1 h2

lemma channel_for_some_elim {cfg : Config} {p c : Nat}
    (h : channel_for cfg p = some c) :
    ∃ kv ∈ key_to_led_map,
      key_to_led_map.find? (fun x => x.1 == p - cfg.min_midi_note + 1) = some kv ∧
      c = kv.2 - 2 ∧ kv.2 - 2 < cfg.num_leds ∧
      cfg.min_midi_note ≤ p ∧ p ≤ cfg.max_midi_note := by
  unfold channel_for midi_to_piano_key at h
  split at h
  · rename_i hr
    rw [Option.some_bind] at h
    unfold piano_key_to_led map_lookup at h
    cases hfind : key_to_led_map.find? (fun x => x.1 == p - cfg.min_midi_note + 1) with
    | none => rw [hfind] at h; cases h
    | some kv =>
      rw [hfind] at h
      first
      | simp only [Option.map_some] at h
      | simp only [Option.map_some'] at h
      split at h
      · rename_i hlt
        exact ⟨kv, List.mem_of_find?_eq_some hfind, rfl,
          (Option.some_inj.mp h).symm, hlt, hr.1, hr.2⟩
      · cases h
  · cases h

/-- Claim C9 (pitch-to-channel map): the composed lookup
`channel_for = piano_key_to_led ∘ midi_to_piano_key` is a pure partial
function that is strictly monotonically increasing on its domain (hence
injective); a pitch outside the instrument range yields `none` rather
than an error, and a pitch with no channel produces no physical output
(the playback step for it transmits nothing and raises nothing). -/
theorem C9_pitch_channel_map (cfg : Config) :
    (∀ p1 p2 c1 c2, channel_for cfg p1 = some c1 → channel_for cfg p2 = some c2 →
      p1 < p2 → c1 < c2) ∧
    (∀ p1 p2 c, channel_for cfg p1 = some c → channel_for cfg p2 = some c → p1 = p2) ∧
    (∀ p, p < cfg.min_midi_note ∨ cfg.max_midi_note < p → channel_for cfg p = none) ∧
    (∀ durs s tr msg t, channel_for cfg msg.note = none →
      (process_msg cfg durs s tr msg t).2.2.1 = [] ∧
      (process_msg cfg durs s tr msg t).2.2.2 = false) := by
  have mono : ∀ p1 p2 c1 c2, channel_for cfg p1 = some c1 → channel_for cfg p2 = some c2 →
      p1 < p2 → c1 < c2 := by
    intro p1 p2 c1 c2 h1 h2 hlt
    obtain ⟨kv1, hm1, hf1, hc1, _, hmin1, _⟩ := channel_for_some_elim h1
    obtain ⟨kv2, hm2, hf2, hc2, _, _, _⟩ := channel_for_some_elim h2
    have hkey : p1 - cfg.min_midi_note + 1 < p2 - cfg.min_midi_note + 1 := by omega
    have hv := find?_assoc_mono map_pairwise_mono hf1 hf2 hkey
    have h2le := map_values_ge_two kv1 hm1
    omega
  refine ⟨mono, ?_, ?_, ?_⟩
  · intro p1 p2 c h1 h2
    rcases Nat.lt_trichotomy p1 p2 with h | h | h
    · exact absurd (mono p1 p2 c c h1 h2 h) (lt_irrefl c)
    · exact h
    · exact absurd (mono p2 p1 c c h2 h1 h) (lt_irrefl c)
  · intro p hp
    unfold channel_for midi_to_piano_key
    have : ¬(cfg.min_midi_note ≤ p ∧ p ≤ cfg.max_midi_note) := by omega
    rw [if_neg this, Option.none_bind]
  · intro durs s tr msg t h
    unfold process_msg
    split
    · cases hkey : midi_to_piano_key cfg msg.note with
      | none => exact ⟨rfl, rfl⟩
      | some key =>
        have hled : piano_key_to_led cfg key = none := by
          unfold channel_for at h
          rw [hkey, Option.some_bind] at h
          exact h
        simp [hled, update_led]
    · exact ⟨rfl, rfl⟩

/-- Witness for `C9_pitch_channel_map`: with the default configuration,
pitches 21 and 23 map to channels 0 and 2 (monotone, injective at those
inputs), pitch 20 is below the range and maps to `none`, and a playback
step for pitch 20 transmits nothing. -/
theorem C9_pitch_channel_map_witness :
    (channel_for defaultConfig 21 = some 0 ∧ channel_for defaultConfig 23 = some 4 ∧
      21 < 23 ∧ (0 : Nat) < 4) ∧
    (20 < defaultConfig.min_midi_note ∨ defaultConfig.max_midi_note < 20) ∧
    channel_for defaultConfig 20 = none ∧
    ((process_msg defaultConfig [] sW trW ⟨0, MsgType.note_on, 20, 64⟩ 0).2.2.1 = [] ∧
      (process_msg defaultConfig [] sW trW ⟨0, MsgType.note_on, 20, 64⟩ 0).2.2.2 = false) :=
  ⟨⟨by decide, by decide, by decide,
      (C9_pitch_channel_map defaultConfig).1 21 23 0 4 (by decide) (by decide) (by decide)⟩,
    by decide,
    (C9_pitch_channel_map defaultConfig).2.2.1 20 (by decide),
    (C9_pitch_channel_map defaultConfig).2.2.2 [] sW trW ⟨0, MsgType.note_on, 20, 64⟩ 0
      (by decide)⟩

/-! ### Dictionary (association-list) lemmas -/

lemma find?_append_eq {α : Type} (p : α → Bool) (l1 l2 : List α) :
    (l1 ++ l2).find? p =
      match l1.find? p with
      | some x => some x
      | none => l2.find? p := by
  induction l1 with
  | nil => rfl
  | cons a l1 ih =>
    by_cases ha : p a = true
    · simp [List.find?_cons, ha]
    · rw [Bool.not_eq_true] at ha
      simp [List.find?_cons, ha, ih]

lemma find?_map_overwrite (k : Nat) (v : Time) (d : List (Nat × Time))
    (h : d.any (fun kv => kv.1 == k) = true) :
    (d.map (fun kv => if kv.1 == k then (k, v) else kv)).find?
      (fun kv => kv.1 == k) = some (k, v) := by
  induction d with
  | nil => cases h
  | cons a d ih =>
    rw [List.map_cons]
    by_cases hak : (a.1 == k) = true
    · rw [if_pos hak]
      have hkk : (((k, v) : Nat × Time).1 == k) = true := by simp
      simp only [List.find?_cons, hkk]
    · rw [Bool.not_eq_true] at hak
      rw [List.any_cons, hak, Bool.false_or] at h
      rw [if_neg (by simp [hak])]
      simp only [List.find?_cons, hak]
      exact ih h

lemma find?_map_overwrite_ne (k k2 : Nat) (v : Time) (d : List (Nat × Time))
    (hne : k ≠ k2) :
    (d.map (fun kv => if kv.1 == k2 then (k2, v) else kv)).find?
      (fun kv => kv.1 == k) = d.find? (fun kv => kv.1 == k) := by
  induction d with
  | nil => rfl
  | cons a d ih =>
    rw [List.map_cons]
    by_cases hak2 : (a.1 == k2) = true
    · have hak : (a.1 == k) = false := by
        rw [beq_iff_eq] at hak2
        simp [hak2, Ne.symm hne]
      have hk2k : (((k2, v) : Nat × Time).1 == k) = false := by simp [Ne.symm hne]
      rw [if_pos hak2]
      simp only [List.find?_cons, hk2k, hak]
      exact ih
    · rw [Bool.not_eq_true] at hak2
      rw [if_neg (by simp [hak2])]
      by_cases hak : (a.1 == k) = true
      · simp only [List.find?_cons, hak]
      · rw [Bool.not_eq_true] at hak
        simp only [List.find?_cons, hak]
        exact ih

lemma find?_not_any (k : Nat) (d : List (Nat × Time))
    (h : d.any (fun kv => kv.1 == k) = false) :
    d.find? (fun kv => kv.1 == k) = none := by
  rw [List.find?_eq_none]
  intro a ha hpred
  have : d.any (fun kv => kv.1 == k) = true := List.any_eq_true.mpr ⟨a, ha, hpred⟩
  rw [h] at this
  cases this

lemma dget_dinsert_self (k : Nat) (v : Time) (d : List (Nat × Time)) :
    dget k (dinsert k v d) = some v := by
  unfold dget dinsert
  split
  · rename_i hany
    rw [find?_map_overwrite k v d hany]
    rfl
  · rename_i hany
    rw [Bool.not_eq_true] at hany
    rw [find?_append_eq, find?_not_any k d hany]
    simp [List.find?_cons]

lemma dget_dinsert_ne (k k2 : Nat) (v : Time) (d : List (Nat × Time))
    (hne : k ≠ k2) :
    dget k (dinsert k2 v d) = dget k d := by
  unfold dget dinsert
  split
  · rw [find?_map_overwrite_ne k k2 v d hne]
  · rw [find?_append_eq]
    cases hf : d.find? (fun kv => kv.1 == k) with
    | some kv => rfl
    | none => simp [List.find?_cons, Ne.symm hne]

lemma dget_dremove_self (k : Nat) (d : List (Nat × Time)) :
    dget k (dremove k d) = none := by
  unfold dget dremove
  have : (d.filter (fun kv => kv.1 != k)).find? (fun kv => kv.1 == k) = none := by
    rw [List.find?_eq_none]
    intro a ha hpred
    have := (List.mem_filter.mp ha).2
    rw [bne_iff_ne] at this
    rw [beq_iff_eq] at hpred
    exact this hpred
  rw [this]
  rfl

lemma dget_dremove_ne (k k2 : Nat) (d : List (Nat × Time)) (hne : k ≠ k2) :
    dget k (dremove k2 d) = dget k d := by
  unfold dget dremove
  induction d with
  | nil => rfl
  | cons a d ih =>
    simp only [List.filter_cons]
    by_cases hak2 : (a.1 != k2) = true
    · rw [if_pos hak2]
      simp only [List.find?_cons]
      by_cases hak : (a.1 == k) = true
      · simp only [hak]
      · rw [Bool.not_eq_true] at hak
        simp only [hak]
        exact ih
    · rw [if_neg hak2]
      rw [Bool.not_eq_true, bne_eq_false_iff_eq] at hak2
      have hak : (a.1 == k) = false := by simp [hak2, Ne.symm hne]
      simp only [List.find?_cons, hak]
      exact ih

/-! ### Lemmas about the duration pre-pass -/

lemma isClosing_not_opening {m : Msg} (h : isClosing m = true) :
    isOpening m = false := by
  obtain ⟨t, ty, note, vel⟩ := m
  cases ty <;> simp_all [isClosing, isOpening]

lemma parse_scan_append (cfg : Config) (l1 l2 : List Msg)
    (st : Time × List (Nat × Time) × List (Nat × Time)) :
    parse_scan cfg (l1 ++ l2) st = parse_scan cfg l2 (parse_scan cfg l1 st) := by
  induction l1 generalizing st with
  | nil => rfl
  | cons m l1 ih =>
    obtain ⟨t, starts, durs⟩ := st
    simp only [List.cons_append, parse_scan]
    split
    · split <;> exact ih _
    · split
      · split
        · split <;> exact ih _
        · exact ih _
      · exact ih _

lemma parse_scan_time (cfg : Config) (msgs : List Msg)
    (t : Time) (starts durs : List (Nat × Time)) :
    (parse_scan cfg msgs (t, starts, durs)).1 = t + (msgs.map Msg.time).sum := by
  induction msgs generalizing t starts durs with
  | nil => simp [parse_scan]
  | cons m msgs ih =>
    simp only [parse_scan, List.map_cons, List.sum_cons]
    split
    · split <;> rw [ih] <;> ring
    · split
      · split
        · split <;> rw [ih] <;> ring
        · rw [ih]; ring
      · rw [ih]; ring

lemma parse_scan_untouched (cfg : Config) (key : Nat) (msgs : List Msg)
    (h : ∀ m ∈ msgs, touches cfg key m = false) (t : Time)
    (starts durs : List (Nat × Time)) :
    dget key (parse_scan cfg msgs (t, starts, durs)).2.1 = dget key starts ∧
    dget key (parse_scan cfg msgs (t, starts, durs)).2.2 = dget key durs := by
  induction msgs generalizing t starts durs with
  | nil => exact ⟨rfl, rfl⟩
  | cons m msgs ih =>
    have hm := h m (List.mem_cons_self m msgs)
    have hrest : ∀ m' ∈ msgs, touches cfg key m' = false :=
      fun m' hm' => h m' (List.mem_cons_of_mem m hm')
    unfold touches at hm
    rw [Bool.and_eq_false_iff] at hm
    simp only [parse_scan]
    split
    · rename_i hop
      split
      · rename_i key2 hkey
        have hne : key ≠ key2 := by
          intro he
          rcases hm with hm | hm
          · rw [hkey, he] at hm; simp at hm
          · rw [hop] at hm; simp at hm
        have := ih hrest (t + m.time) (dinsert key2 (t + m.time) starts) durs
        rw [this.1, this.2, dget_dinsert_ne key key2 _ starts hne]
        exact ⟨rfl, rfl⟩
      · exact ih hrest _ _ _
    · split
      · rename_i hnop hcl
        split
        · rename_i key2 hkey
          have hne : key ≠ key2 := by
            intro he
            rcases hm with hm | hm
            · rw [hkey, he] at hm; simp at hm
            · rw [hcl] at hm; simp at hm
          split
          · rename_i st0 hst
            have := ih hrest (t + m.time) (dremove key2 starts)
              (dinsert key2 (t + m.time - st0) durs)
            rw [this.1, this.2, dget_dremove_ne key key2 starts hne,
              dget_dinsert_ne key key2 _ durs hne]
            exact ⟨rfl, rfl⟩
          · exact ih hrest _ _ _
        · exact ih hrest _ _ _
      · exact ih hrest _ _ _

lemma parse_scan_no_closing (cfg : Config) (key : Nat) (msgs : List Msg)
    (h : ∀ m ∈ msgs, (isClosing m && (midi_to_piano_key cfg m.note == some key)) = false)
    (t : Time) (starts durs : List (Nat × Time)) :
    dget key (parse_scan cfg msgs (t, starts, durs)).2.2 = dget key durs := by
  induction msgs generalizing t starts durs with
  | nil => rfl
  | cons m msgs ih =>
    have hm := h m (List.mem_cons_self m msgs)
    have hrest : ∀ m' ∈ msgs,
        (isClosing m' && (midi_to_piano_key cfg m'.note == some key)) = false :=
      fun m' hm' => h m' (List.mem_cons_of_mem m hm')
    rw [Bool.and_eq_false_iff] at hm
    simp only [parse_scan]
    split
    · split <;> exact ih hrest _ _ _
    · split
      · rename_i hnop hcl
        split
        · rename_i key2 hkey
          have hne : key ≠ key2 := by
            intro he
            rcases hm with hm | hm
            · rw [hcl] at hm; simp at hm
            · rw [hkey, he] at hm; simp at hm
          split
          · rename_i st0 hst
            rw [ih hrest _ _ _, dget_dinsert_ne key key2 _ durs hne]
          · exact ih hrest _ _ _
        · exact ih hrest _ _ _
      · exact ih hrest _ _ _

lemma parse_scan_cons_open (cfg : Config) (m : Msg) (rest : List Msg) (t : Time)
    (starts durs : List (Nat × Time)) (key : Nat)
    (hop : isOpening m = true) (hkey : midi_to_piano_key cfg m.note = some key) :
    parse_scan cfg (m :: rest) (t, starts, durs) =
      parse_scan cfg rest (t + m.time, dinsert key (t + m.time) starts, durs) := by
  simp [parse_scan, hop, hkey]

lemma parse_scan_cons_close_found (cfg : Config) (m : Msg) (rest : List Msg)
    (t : Time) (starts durs : List (Nat × Time)) (key : Nat) (st0 : Time)
    (hnop : isOpening m = false) (hcl : isClosing m = true)
    (hkey : midi_to_piano_key cfg m.note = some key)
    (hst : dget key starts = some st0) :
    parse_scan cfg (m :: rest) (t, starts, durs) =
      parse_scan cfg rest (t + m.time, dremove key starts,
        dinsert key (t + m.time - st0) durs) := by
  simp [parse_scan, hnop, hcl, hkey, hst]

/-- Claim C5 (duration resolution): (a) for a score in which the pitch's
note-on is followed by its matching closing event (note-off, or note-on
of zero velocity), with arbitrary other-pitch events interleaved, the
Duration Table entry for that pitch is exactly `off_time - on_time`;
(b) if a second note-on for the same pitch arrives before its note-off,
the new start overwrites the old one, so the resolved duration is
measured from the *second* note-on (last-open-wins), and the table holds
only the most recently closed duration; (c) a pitch never closed during
the scan produces no table entry. -/
theorem C5_duration_resolution :
    (∀ (cfg : Config) (key note von : Nat) (don : Time) (offMsg : Msg)
      (A B C : List Msg),
      midi_to_piano_key cfg note = some key → 0 < von →
      offMsg.note = note → isClosing offMsg = true →
      (∀ m ∈ A, touches cfg key m = false) →
      (∀ m ∈ B, touches cfg key m = false) →
      (∀ m ∈ C, touches cfg key m = false) →
      dget key (parse_midi_durations cfg
          (A ++ Msg.mk don MsgType.note_on note von :: (B ++ offMsg :: C))) =
        some ((((A.map Msg.time).sum + don) + (B.map Msg.time).sum + offMsg.time) -
          ((A.map Msg.time).sum + don))) ∧
    (∀ (cfg : Config) (key note von1 von2 : Nat) (don1 don2 : Time) (offMsg : Msg)
      (A B C D : List Msg),
      midi_to_piano_key cfg note = some key → 0 < von1 → 0 < von2 →
      offMsg.note = note → isClosing offMsg = true →
      (∀ m ∈ A, touches cfg key m = false) →
      (∀ m ∈ B, touches cfg key m = false) →
      (∀ m ∈ C, touches cfg key m = false) →
      (∀ m ∈ D, touches cfg key m = false) →
      dget key (parse_midi_durations cfg
          (A ++ Msg.mk don1 MsgType.note_on note von1 ::
            (B ++ Msg.mk don2 MsgType.note_on note von2 :: (C ++ offMsg :: D)))) =
        some (((((A.map Msg.time).sum + don1) + (B.map Msg.time).sum + don2) +
            (C.map Msg.time).sum + offMsg.time) -
          ((((A.map Msg.time).sum + don1) + (B.map Msg.time).sum + don2)))) ∧
    (∀ (cfg : Config) (key : Nat) (msgs : List Msg),
      (∀ m ∈ msgs, (isClosing m && (midi_to_piano_key cfg m.note == some key)) = false) →
      dget key (parse_midi_durations cfg msgs) = none) := by
  refine ⟨?_, ?_, ?_⟩
  · intro cfg key note von don offMsg A B C hnote hvon hoffn hcl hA hB hC
    have hop : isOpening (Msg.mk don MsgType.note_on note von) = true := by
      simp [isOpening, hvon]
    unfold parse_midi_durations
    rw [parse_scan_append]
    rcases hstA : parse_scan cfg A (0, [], []) with ⟨tA, startsA, dursA⟩
    have htA : tA = 0 + (A.map Msg.time).sum := by
      have h := parse_scan_time cfg A 0 [] []
      rw [hstA] at h
      exact h
    rw [parse_scan_cons_open cfg _ _ tA startsA dursA key hop hnote,
      parse_scan_append]
    rcases hstB : parse_scan cfg B
        (tA + don, dinsert key (tA + don) startsA, dursA) with ⟨tB, startsB, dursB⟩
    have hBfacts := parse_scan_untouched cfg key B hB (tA + don)
      (dinsert key (tA + don) startsA) dursA
    rw [hstB] at hBfacts
    have htB : tB = (tA + don) + (B.map Msg.time).sum := by
      have h := parse_scan_time cfg B (tA + don) (dinsert key (tA + don) startsA) dursA
      rw [hstB] at h
      exact h
    have hdgB : dget key startsB = some (tA + don) := by
      rw [hBfacts.1, dget_dinsert_self]
    rw [parse_scan_cons_close_found cfg offMsg C tB startsB dursB key (tA + don)
      (isClosing_not_opening hcl) hcl (hoffn ▸ hnote) hdgB]
    rw [(parse_scan_untouched cfg key C hC _ _ _).2, dget_dinsert_self]
    refine congrArg some ?_
    rw [htB, htA]
    ring
  · intro cfg key note von1 von2 don1 don2 offMsg A B C D hnote hvon1 hvon2
      hoffn hcl hA hB hC hD
    have hop1 : isOpening (Msg.mk don1 MsgType.note_on note von1) = true := by
      simp [isOpening, hvon1]
    have hop2 : isOpening (Msg.mk don2 MsgType.note_on note von2) = true := by
      simp [isOpening, hvon2]
    unfold parse_midi_durations
    rw [parse_scan_append]
    rcases hstA : parse_scan cfg A (0, [], []) with ⟨tA, startsA, dursA⟩
    have htA : tA = 0 + (A.map Msg.time).sum := by
      have h := parse_scan_time cfg A 0 [] []
      rw [hstA] at h
      exact h
    rw [parse_scan_cons_open cfg _ _ tA startsA dursA key hop1 hnote,
      parse_scan_append]
    rcases hstB : parse_scan cfg B
        (tA + don1, dinsert key (tA + don1) startsA, dursA) with ⟨tB, startsB, dursB⟩
    have htB : tB = (tA + don1) + (B.map Msg.time).sum := by
      have h := parse_scan_time cfg B (tA + don1) (dinsert key (tA + don1) startsA) dursA
      rw [hstB] at h
      exact h
    rw [parse_scan_cons_open cfg _ _ tB startsB dursB key hop2 hnote,
      parse_scan_append]
    rcases hstC : parse_scan cfg C
        (tB + don2, dinsert key (tB + don2) startsB, dursB) with ⟨tC, startsC, dursC⟩
    have hCfacts := parse_scan_untouched cfg key C hC (tB + don2)
      (dinsert key (tB + don2) startsB) dursB
    rw [hstC] at hCfacts
    have htC : tC = (tB + don2) + (C.map Msg.time).sum := by
      have h := parse_scan_time cfg C (tB + don2) (dinsert key (tB + don2) startsB) dursB
      rw [hstC] at h
      exact h
    have hdgC : dget key startsC = some (tB + don2) := by
      rw [hCfacts.1, dget_dinsert_self]
    rw [parse_scan_cons_close_found cfg offMsg D tC startsC dursC key (tB + don2)
      (isClosing_not_opening hcl) hcl (hoffn ▸ hnote) hdgC]
    rw [(parse_scan_untouched cfg key D hD _ _ _).2, dget_dinsert_self]
    refine congrArg some ?_
    rw [htC, htB, htA]
    ring
  · intro cfg key msgs h
    unfold parse_midi_durations
    rw [parse_scan_no_closing cfg key msgs h 0 [] []]
    rfl

/-- Witness for `C5_duration_resolution`: on the two-message score
"note 21 on at 0, off at 1" the table entry for key 1 is exactly `1`;
on "on, on 2 s later, off 3 s after that" it is `3` (measured from the
second note-on); a score with a single unclosed note-on yields no
entry. -/
theorem C5_duration_resolution_witness :
    (midi_to_piano_key cfgW 21 = some 1 ∧ (0 : Nat) < 64 ∧
      dget 1 (parse_midi_durations cfgW
        ([] ++ Msg.mk 0 MsgType.note_on 21 64 :: ([] ++ ⟨1, MsgType.note_off, 21, 0⟩ :: [])))
        = some (1 : Time)) ∧
    dget 1 (parse_midi_durations cfgW
        ([] ++ Msg.mk 0 MsgType.note_on 21 64 ::
          ([] ++ Msg.mk 2 MsgType.note_on 21 64 ::
            ([] ++ (⟨3, MsgType.note_off, 21, 0⟩ : Msg) :: []))))
      = some (3 : Time) ∧
    dget 1 (parse_midi_durations cfgW [⟨0, MsgType.note_on, 21, 64⟩]) = none := by
  have h1 := C5_duration_resolution.1 cfgW 1 21 64 0 ⟨1, MsgType.note_off, 21, 0⟩
    [] [] [] (by decide) (by decide) rfl (by decide)
    (by decide) (by decide) (by decide)
  have h2 := C5_duration_resolution.2.1 cfgW 1 21 64 64 0 2 ⟨3, MsgType.note_off, 21, 0⟩
    [] [] [] [] (by decide) (by decide) (by decide) rfl (by decide)
    (by decide) (by decide) (by decide) (by decide)
  have h3 := C5_duration_resolution.2.2 cfgW 1 [⟨0, MsgType.note_on, 21, 64⟩] (by decide)
  refine ⟨⟨by decide, by decide, ?_⟩, ?_, h3⟩
  · rw [h1]
    norm_num
  · rw [h2]
    norm_num

/-! ### Lemmas about `cleanup` and the drain loop -/

lemma cleanup_state (cfg : Config) (s : CState) (tr : Transport) :
    (cleanup cfg s tr).1 = s ∨
    ((cleanup cfg s tr).1 = { s with serOpen := false, hasSer := false } ∧
      s.own_ser = true) := by
  unfold cleanup
  split
  · rcases hw : cleanup_writes cfg s (List.range cfg.num_leds) tr with ⟨tr1, cmds, raised⟩
    dsimp only
    split
    · left; rfl
    · split
      · rename_i hown
        right
        exact ⟨rfl, hown⟩
      · left; rfl
  · left; rfl

lemma cleanup_own_false (cfg : Config) (s : CState) (tr : Transport)
    (h : s.own_ser = false) : (cleanup cfg s tr).1 = s := by
  rcases cleanup_state cfg s tr with h1 | ⟨_, h2⟩
  · exact h1
  · rw [h] at h2; cases h2

lemma cleanup_led_states (cfg : Config) (s : CState) (tr : Transport) :
    (cleanup cfg s tr).1.led_states = s.led_states := by
  rcases cleanup_state cfg s tr with h1 | ⟨h1, _⟩ <;> rw [h1]

lemma cleanup_writes_none (cfg : Config) (s : CState) (l : List Nat) (tr : Transport)
    (hf : tr.failAt = none) :
    (cleanup_writes cfg s l tr).2.2 = false ∧
    (cleanup_writes cfg s l tr).2.1 = l.filterMap
      (fun i => if s.led_states.getD i false then some (Cmd.mk false i) else none) ∧
    (cleanup_writes cfg s l tr).1.failAt = none := by
  induction l generalizing tr with
  | nil => exact ⟨rfl, rfl, hf⟩
  | cons i l ih =>
    simp only [cleanup_writes, transport_write]
    by_cases hi : s.led_states.getD i false = true
    · rw [if_pos hi]
      have hok : (decide (tr.failAt ≠ some tr.writes)) = true := by simp [hf]
      rw [hok]
      rcases hw : cleanup_writes cfg s l { tr with writes := tr.writes + 1 }
        with ⟨tr2, cmds2, r2⟩
      have hrec := ih { tr with writes := tr.writes + 1 } hf
      rw [hw] at hrec
      obtain ⟨h1, h2, h3⟩ := hrec
      simp only at h1 h2 h3
      have hi2 : s.led_states[i]?.getD false = true := by
        rw [← List.getD_eq_getElem?_getD]; exact hi
      simp [h1, h2, h3, List.filterMap_cons, hi, hi2]
    · rw [Bool.not_eq_true] at hi
      rw [if_neg (by rw [hi]; exact Bool.false_ne_true)]
      have hrec := ih tr hf
      have hi2 : s.led_states[i]?.getD false = false := by
        rw [← List.getD_eq_getElem?_getD]; exact hi
      simp [hrec.1, hrec.2.1, hrec.2.2, List.filterMap_cons, hi, hi2]

lemma cleanup_cmds_none (cfg : Config) (s : CState) (tr : Transport)
    (hf : tr.failAt = none) (hs : s.hasSer = true) (ho : s.serOpen = true) :
    (cleanup cfg s tr).2.2.1 = (List.range cfg.num_leds).filterMap
      (fun i => if s.led_states.getD i false then some (Cmd.mk false i) else none) ∧
    (cleanup cfg s tr).2.2.2 = false ∧
    (cleanup cfg s tr).2.1.failAt = none := by
  unfold cleanup
  rw [hs, ho]
  simp only [Bool.and_self, if_true]
  rcases hw : cleanup_writes cfg s (List.range cfg.num_leds) tr with ⟨tr1, cmds, raised⟩
  have hcw := cleanup_writes_none cfg s (List.range cfg.num_leds) tr hf
  rw [hw] at hcw
  obtain ⟨h1, h2, h3⟩ := hcw
  simp only at h1 h2 h3
  rw [h1]
  simp only [Bool.false_eq_true, if_false]
  split <;> exact ⟨h2, rfl, h3⟩

lemma update_leds_from_none (cfg : Config) (l : List Nat) (s : CState)
    (tr : Transport) (t : Time) (hf : tr.failAt = none) :
    (update_leds_from cfg l s tr t).2.2.2 = false ∧
    (update_leds_from cfg l s tr t).2.1.failAt = none := by
  induction l generalizing s tr with
  | nil => exact ⟨rfl, hf⟩
  | cons led l ih =>
    simp only [update_leds_from]
    rcases hu : update_led cfg s tr (some led) t with ⟨s1, tr1, cmds, raised⟩
    have hur := update_led_raised_none cfg s tr (some led) t hf
    rw [hu] at hur
    obtain ⟨h1, h2⟩ := hur
    simp only at h1 h2
    rw [h1]
    simp only [Bool.false_eq_true, if_false]
    rcases hrec : update_leds_from cfg l s1 tr1 t with ⟨s2, tr2, cmds2, r2⟩
    have := ih s1 tr1 h2
    rw [hrec] at this
    exact this

lemma drain_loop_time (cfg : Config) (n : Nat) (s : CState) (tr : Transport)
    (t : Time) (hf : tr.failAt = none) :
    (drain_loop cfg n s tr t).2.2.2.1 = t + n * drain_tick ∧
    (drain_loop cfg n s tr t).2.1.failAt = none := by
  induction n generalizing s tr t with
  | zero => exact ⟨by simp [drain_loop], hf⟩
  | succ n ih =>
    simp only [drain_loop]
    rcases hu : update_leds_from cfg (List.range cfg.num_leds) s tr (t + drain_tick)
      with ⟨s1, tr1, cmds, raised⟩
    have hur := update_leds_from_none cfg (List.range cfg.num_leds) s tr (t + drain_tick) hf
    rw [hu] at hur
    obtain ⟨h1, h2⟩ := hur
    simp only at h1 h2
    rw [h1]
    simp only [Bool.false_eq_true, if_false]
    rcases hrec : drain_loop cfg n s1 tr1 (t + drain_tick) with ⟨s2, tr2, cmds2, t2, e2⟩
    have := ih s1 tr1 (t + drain_tick) h2
    rw [hrec] at this
    simp only at this
    refine ⟨?_, this.2⟩
    rw [this.1]
    push_cast
    ring

lemma update_led_note_active (cfg : Config) (s : CState) (tr : Transport)
    (led : Nat) (t : Time) :
    (update_led cfg s tr (some led) t).1.note_active = fun k =>
      if k ∈ keys_for_led cfg led then prune t (s.note_active k)
      else s.note_active k := by
  simp only [update_led, transport_write]
  split
  · split <;> rfl
  · rfl

/-- Claim C8 (transport ownership): the ownership flag is set at
construction from whether a transport was supplied; after teardown a
borrowed transport is untouched (still attached and open), while an
owned, open transport is closed and dropped (given that no teardown
write raises). -/
theorem C8_transport_ownership :
    (∀ cfg : Config, (initController cfg).own_ser = !cfg.serProvided) ∧
    (∀ (cfg : Config) (s : CState) (tr : Transport), s.own_ser = false →
      (cleanup cfg s tr).1.serOpen = s.serOpen ∧
      (cleanup cfg s tr).1.hasSer = s.hasSer) ∧
    (∀ (cfg : Config) (s : CState) (tr : Transport),
      s.own_ser = true → s.hasSer = true → s.serOpen = true → tr.failAt = none →
      (cleanup cfg s tr).1.serOpen = false ∧ (cleanup cfg s tr).1.hasSer = false) := by
  refine ⟨fun _ => rfl, ?_, ?_⟩
  · intro cfg s tr h
    rw [cleanup_own_false cfg s tr h]
    exact ⟨rfl, rfl⟩
  · intro cfg s tr hown hs ho hf
    unfold cleanup
    rw [hs, ho]
    simp only [Bool.and_self, if_true]
    rcases hw : cleanup_writes cfg s (List.range cfg.num_leds) tr with ⟨tr1, cmds, raised⟩
    have hcw := cleanup_writes_none cfg s (List.range cfg.num_leds) tr hf
    rw [hw] at hcw
    have h1 : raised = false := hcw.1
    rw [h1]
    simp only [Bool.false_eq_true, if_false]
    rw [if_pos hown]
    exact ⟨rfl, rfl⟩

/-- Witness for `C8_transport_ownership`: the borrowed transport of `sW`
survives teardown open; the same state with `own_ser := true` has its
transport closed by teardown. -/
theorem C8_transport_ownership_witness :
    (sW.own_ser = false ∧
      (cleanup cfgW sW trW).1.serOpen = sW.serOpen ∧
      (cleanup cfgW sW trW).1.hasSer = sW.hasSer) ∧
    (({ sW with own_ser := true } : CState).own_ser = true ∧
      (cleanup cfgW { sW with own_ser := true } trW).1.serOpen = false ∧
      (cleanup cfgW { sW with own_ser := true } trW).1.hasSer = false) :=
  ⟨⟨rfl, C8_transport_ownership.2.1 cfgW sW trW rfl⟩,
    ⟨rfl, C8_transport_ownership.2.2 cfgW { sW with own_ser := true } trW
      rfl rfl rfl rfl⟩⟩

/-- Claim C10 (teardown does not update tracked state): `cleanup` never
modifies `led_states`; consequently, invoking `cleanup` a second time on
a still-open borrowed transport retransmits exactly the same `OFF`
commands — one `OFF i` per channel whose tracked state is on — instead
of doing nothing. -/
theorem C10_cleanup_retransmits :
    (∀ (cfg : Config) (s : CState) (tr : Transport),
      (cleanup cfg s tr).1.led_states = s.led_states) ∧
    (∀ (cfg : Config) (s : CState) (tr : Transport),
      tr.failAt = none → s.own_ser = false → s.hasSer = true → s.serOpen = true →
      (cleanup cfg s tr).2.2.1 = (List.range cfg.num_leds).filterMap
        (fun i => if s.led_states.getD i false then some (Cmd.mk false i) else none) ∧
      (cleanup cfg ((cleanup cfg s tr).1) ((cleanup cfg s tr).2.1)).2.2.1 =
        (cleanup cfg s tr).2.2.1) := by
  refine ⟨cleanup_led_states, ?_⟩
  intro cfg s tr hf hown hs ho
  have h1 := cleanup_cmds_none cfg s tr hf hs ho
  have hst := cleanup_own_false cfg s tr hown
  have h2 := cleanup_cmds_none cfg s ((cleanup cfg s tr).2.1) h1.2.2 hs ho
  refine ⟨h1.1, ?_⟩
  rw [hst, h2.1, h1.1]

/-- Witness for `C10_cleanup_retransmits`: with channel 0 tracked on and
a borrowed open transport, teardown sends `OFF 0`, leaves `led_states`
unchanged, and a second teardown sends `OFF 0` again. -/
theorem C10_cleanup_retransmits_witness :
    trW.failAt = none ∧
    (cleanup cfgW { sW with led_states := [true] } trW).2.2.1 =
      (List.range cfgW.num_leds).filterMap
        (fun i => if ({ sW with led_states := [true] } : CState).led_states.getD i false
          then some (Cmd.mk false i) else none) ∧
    (cleanup cfgW ((cleanup cfgW { sW with led_states := [true] } trW).1)
        ((cleanup cfgW { sW with led_states := [true] } trW).2.1)).2.2.1 =
      (cleanup cfgW { sW with led_states := [true] } trW).2.2.1 :=
  ⟨rfl, C10_cleanup_retransmits.2 cfgW { sW with led_states := [true] } trW
    rfl rfl rfl rfl⟩

lemma isOpening_type {m : Msg} (h : isOpening m = true) :
    m.type = MsgType.note_on := by
  obtain ⟨t, ty, note, vel⟩ := m
  cases ty <;> simp_all [isOpening]

lemma mem_update_led_note_active (cfg : Config) (s : CState) (tr : Transport)
    (li : Option Nat) (t : Time) (key : Nat) (td : Time × Time)
    (hmem : td ∈ s.note_active key) (hlive : t < td.1 + td.2) :
    td ∈ (update_led cfg s tr li t).1.note_active key := by
  cases li with
  | none => exact hmem
  | some led =>
    rw [update_led_note_active]
    dsimp only
    by_cases hk : key ∈ keys_for_led cfg led
    · rw [if_pos hk]
      exact List.mem_filter.mpr ⟨hmem, by simp only [decide_eq_true_eq]; exact hlive⟩
    · rw [if_neg hk]
      exact hmem

/-- Claim C6 counterexample: the duration fallback used for a pitch absent
from the Duration Table is the same `0.1` under two configurations that
differ in every construction argument, and the drain tick advances time
by the same `0.05` under both — so neither value is supplied at session
construction; they are hardcoded literals (`0.1`, `0.05` — and `0.01`
for the post-command delay) in the algorithm, contradicting the claim
that they are construction inputs. -/
theorem C6_counterexample :
    cfgW ≠ cfgW2 ∧
    ((0 : Time), 1 / 10) ∈
      (process_msg cfgW [] sW trW ⟨0, MsgType.note_on, 21, 64⟩ 0).1.note_active 1 ∧
    ((0 : Time), 1 / 10) ∈
      (process_msg cfgW2 [] sW trW ⟨0, MsgType.note_on, 5, 64⟩ 0).1.note_active 5 ∧
    (drain_loop cfgW 1 sW trW 0).2.2.2.1 = 1 / 20 ∧
    (drain_loop cfgW2 1 sW trW 0).2.2.2.1 = 1 / 20 := by
  refine ⟨by decide, of_decide_eq_true (by with_unfolding_all rfl),
    of_decide_eq_true (by with_unfolding_all rfl),
    by with_unfolding_all rfl, by with_unfolding_all rfl⟩

/-- Claim C6 as amended: the default duration fallback for a pitch absent
from the Duration Table is the fixed constant `0.1` s — positive, never
zero or negative — and the drain tick is the fixed constant `0.05` s,
for every configuration alike (they are hardcoded in the algorithm, not
supplied at construction; only channel count, pitch bounds, baud rate
and the optional transport are construction inputs). -/
theorem C6_default_duration_fallback :
    (0 : Time) < default_duration ∧ default_duration = 1 / 10 ∧
    drain_tick = 1 / 20 ∧
    (∀ (cfg : Config) (durs : List (Nat × Time)) (s : CState) (tr : Transport)
      (msg : Msg) (t : Time) (key : Nat),
      midi_to_piano_key cfg msg.note = some key → isOpening msg = true →
      dget key durs = none →
      (t, default_duration) ∈ (process_msg cfg durs s tr msg t).1.note_active key) ∧
    (∀ (cfg : Config) (n : Nat) (s : CState) (tr : Transport) (t : Time),
      tr.failAt = none →
      (drain_loop cfg n s tr t).2.2.2.1 = t + n * drain_tick) := by
  refine ⟨by norm_num [default_duration], rfl, rfl, ?_, ?_⟩
  · intro cfg durs s tr msg t key hkey hop hd
    unfold process_msg
    rw [if_pos (Or.inl (isOpening_type hop)), hkey]
    dsimp only
    rw [if_pos hop]
    refine mem_update_led_note_active cfg _ tr _ t key _ ?_ ?_
    · simp [hd]
    · norm_num [default_duration]
  · intro cfg n s tr t hf
    exact (drain_loop_time cfg n s tr t hf).1

/-- Witness for `C6_default_duration_fallback`: key 1 (note 21) with an
empty Duration Table receives the interval `(0, default_duration)`, and
one drain tick advances the clock by exactly one `drain_tick`. -/
theorem C6_default_duration_fallback_witness :
    (midi_to_piano_key cfgW 21 = some 1 ∧
      isOpening (⟨0, MsgType.note_on, 21, 64⟩ : Msg) = true ∧
      dget 1 ([] : List (Nat × Time)) = none ∧
      ((0 : Time), default_duration) ∈
        (process_msg cfgW [] sW trW ⟨0, MsgType.note_on, 21, 64⟩ 0).1.note_active 1) ∧
    (trW.failAt = none ∧
      (drain_loop cfgW 1 sW trW 0).2.2.2.1 = 0 + (1 : Nat) * drain_tick) :=
  ⟨⟨by decide, by decide, rfl,
    C6_default_duration_fallback.2.2.2.1 cfgW [] sW trW ⟨0, MsgType.note_on, 21, 64⟩ 0 1
      (by decide) (by decide) rfl⟩,
   ⟨rfl, C6_default_duration_fallback.2.2.2.2 cfgW 1 sW trW 0 rfl⟩⟩

/-- Claim C4 (edge-triggered transmission): during `Playing` and
`Draining` every transmission goes through `update_led`, which (with a
healthy transport) writes exactly one command — `ON i` or `OFF i` in
that precise ASCII form — when the recomputed state differs from the
recorded state, and nothing otherwise; hence over any sequence of
checks the number of commands transmitted for a channel equals the
number of true state transitions it undergoes, never more. -/
theorem C4_edge_triggered_transmission :
    (∀ (cfg : Config) (s : CState) (tr : Transport) (led : Nat) (t : Time),
      tr.failAt = none →
      (update_led cfg s tr (some led) t).2.2.1 =
        (if new_state_of cfg s led t != s.led_states.getD led false then
          [⟨new_state_of cfg s led t, led⟩] else [])) ∧
    (∀ c : Cmd, command_line c = "ON " ++ Nat.repr c.index ++ "\n" ∨
      command_line c = "OFF " ++ Nat.repr c.index ++ "\n") ∧
    (∀ (cfg : Config) (checks : List (Option Nat × Time)) (s : CState)
      (tr : Transport) (c : Nat),
      tr.failAt = none →
      (∀ x ∈ checks, ∀ led, x.1 = some led → led < s.led_states.length) →
      (run_checks cfg checks s tr).2.2.countP (fun cmd => cmd.index == c) =
        transitions cfg c checks s tr) := by
  refine ⟨?_, ?_, ?_⟩
  · intro cfg s tr led t hf
    exact (update_led_cmds_ok cfg s tr led t hf).1
  · intro c
    obtain ⟨b, i⟩ := c
    cases b
    · right
      rfl
    · left
      rfl
  · intro cfg checks s tr c hf hb
    induction checks generalizing s tr with
    | nil => rfl
    | cons x rest ih =>
      obtain ⟨li, t⟩ := x
      have hbh := hb (li, t) (List.mem_cons_self _ _)
      have hbr : ∀ x ∈ rest, ∀ led, x.1 = some led →
          led < (update_led cfg s tr li t).1.led_states.length := by
        intro x hx led hled
        rw [update_led_length]
        exact hb x (List.mem_cons_of_mem _ hx) led hled
      simp only [run_checks, transitions, List.countP_append]
      cases li with
      | none =>
        have h0 : (update_led cfg s tr none t) = (s, tr, [], false) := rfl
        rw [h0]
        simp only [List.countP_nil, bne_self_eq_false, Bool.false_eq_true, if_false]
        rw [ih s tr hf (by simpa using hbr)]
      | some led =>
        have hcmds := (update_led_cmds_ok cfg s tr led t hf).1
        have hfa := (update_led_cmds_ok cfg s tr led t hf).2.2
        rw [hcmds]
        rw [ih _ _ hfa hbr]
        have hled : led < s.led_states.length := hbh led rfl
        by_cases hc : c = led
        · subst hc
          rw [update_led_getD_self cfg s tr c t hled]
          by_cases htr : new_state_of cfg s c t != s.led_states.getD c false
          · rw [if_pos htr, htr]
            simp
          · rw [Bool.not_eq_true] at htr
            rw [if_neg (by rw [htr]; exact Bool.false_ne_true), htr]
            simp
        · rw [update_led_getD_other cfg s tr led c t hc]
          simp only [bne_self_eq_false, Bool.false_eq_true, if_false]
          split
          · simp only [List.countP_cons, List.countP_nil]
            have : (({ isOn := new_state_of cfg s led t, index := led } : Cmd).index == c)
                = false := by
              simp [Ne.symm hc]
            rw [this]
            simp
          · simp

/-- Witness for `C4_edge_triggered_transmission`: two checks of LED 0
(at time 0, when key 1's interval `(0, 1)` is live, and at time 2, when
it has expired) transmit exactly one command per transition. -/
theorem C4_edge_triggered_transmission_witness :
    trW.failAt = none ∧
    (run_checks cfgW [(some 0, (0 : Time)), (some 0, 2)] sW trW).2.2.countP
        (fun cmd => cmd.index == 0) =
      transitions cfgW 0 [(some 0, (0 : Time)), (some 0, 2)] sW trW :=
  ⟨rfl, C4_edge_triggered_transmission.2.2 cfgW [(some 0, (0 : Time)), (some 0, 2)]
    sW trW 0 rfl (by
      intro x hx led hled
      have hx1 : x.1 = some 0 := by
        rcases List.mem_cons.mp hx with h | h
        · rw [h]
        · rcases List.mem_cons.mp h with h2 | h2
          · rw [h2]
          · cases h2
      have hled0 : led = 0 := (Option.some_inj.mp (hx1.symm.trans hled)).symm
      rw [hled0]
      decide)⟩

/-! ### The drain-completeness invariant -/

lemma ls_append (t1 t2 : List Cmd) (c : Nat) :
    last_sent (t1 ++ t2) c =
      match last_sent t2 c with
      | some b => some b
      | none => last_sent t1 c := by
  unfold last_sent
  rw [List.filter_append, List.getLast?_append]
  cases h : (t2.filter fun cmd => cmd.index == c).getLast? with
  | some cmd => simp [h, Option.or]
  | none => simp [h, Option.or]

lemma ls_single_eq (b : Bool) (led : Nat) :
    last_sent [⟨b, led⟩] led = some b := by
  simp [last_sent]

lemma ls_single_ne (b : Bool) (led c : Nat) (h : c ≠ led) :
    last_sent [⟨b, led⟩] c = none := by
  have hb : (({ isOn := b, index := led } : Cmd).index == c) = false := by
    simp [Ne.symm h]
  simp [last_sent, hb]

lemma piano_key_to_led_lt {cfg : Config} {k led : Nat}
    (h : piano_key_to_led cfg k = some led) : led < cfg.num_leds := by
  unfold piano_key_to_led at h
  split at h
  · split at h
    · rename_i hlt
      have h2 := Option.some_inj.mp h
      subst h2
      exact hlt
    · cases h
  · cases h

lemma inv_update_led (cfg : Config) (s : CState) (tr : Transport)
    (li : Option Nat) (t : Time) (trace : List Cmd)
    (hinv : Inv cfg s tr trace)
    (hb : ∀ led, li = some led → led < cfg.num_leds) :
    Inv cfg (update_led cfg s tr li t).1 (update_led cfg s tr li t).2.1
      (trace ++ (update_led cfg s tr li t).2.2.1) ∧
    (update_led cfg s tr li t).2.2.2 = false := by
  obtain ⟨hlen, hf, ht, hs, ho⟩ := hinv
  cases li with
  | none =>
    refine ⟨⟨hlen, hf, ?_, hs, ho⟩, rfl⟩
    intro c
    have h0 : (update_led cfg s tr none t) = (s, tr, [], false) := rfl
    rw [h0]
    dsimp only
    rw [List.append_nil]
    exact ht c
  | some led =>
    have hled : led < s.led_states.length := by rw [hlen]; exact hb led rfl
    obtain ⟨hcmds, hraised, hfa⟩ := update_led_cmds_ok cfg s tr led t hf
    obtain ⟨hh, hso, hos⟩ := update_led_fields cfg s tr (some led) t
    refine ⟨⟨?_, hfa, ?_, by rw [hh]; exact hs, by rw [hso]; exact ho⟩, hraised⟩
    · rw [update_led_length]; exact hlen
    · intro c
      rw [hcmds]
      by_cases htr : new_state_of cfg s led t != s.led_states.getD led false
      · rw [if_pos htr, ls_append]
        by_cases hc : c = led
        · subst hc
          rw [ls_single_eq, update_led_getD_self cfg s tr c t hled]
          rfl
        · rw [ls_single_ne _ _ _ hc, update_led_getD_other cfg s tr led c t hc]
          exact ht c
      · rw [if_neg htr, List.append_nil, update_led_led_states, if_neg htr]
        exact ht c

lemma inv_process_msg (cfg : Config) (durs : List (Nat × Time)) (s : CState)
    (tr : Transport) (msg : Msg) (t : Time) (trace : List Cmd)
    (hinv : Inv cfg s tr trace) :
    Inv cfg (process_msg cfg durs s tr msg t).1 (process_msg cfg durs s tr msg t).2.1
      (trace ++ (process_msg cfg durs s tr msg t).2.2.1) ∧
    (process_msg cfg durs s tr msg t).2.2.2 = false := by
  unfold process_msg
  split
  · split
    · dsimp only
      rw [List.append_nil]
      exact ⟨hinv, rfl⟩
    · rename_i key hkey
      dsimp only
      split
      · exact inv_update_led cfg _ tr _ t trace
          ⟨hinv.1, hinv.2.1, hinv.2.2.1, hinv.2.2.2.1, hinv.2.2.2.2⟩
          (fun led h => piano_key_to_led_lt h)
      · split
        · exact inv_update_led cfg _ tr _ t trace
            ⟨hinv.1, hinv.2.1, hinv.2.2.1, hinv.2.2.2.1, hinv.2.2.2.2⟩
            (fun led h => piano_key_to_led_lt h)
        · exact inv_update_led cfg _ tr _ t trace
            ⟨hinv.1, hinv.2.1, hinv.2.2.1, hinv.2.2.2.1, hinv.2.2.2.2⟩
            (fun led h => piano_key_to_led_lt h)
  · dsimp only
    rw [List.append_nil]
    exact ⟨hinv, rfl⟩

lemma inv_play_loop (cfg : Config) (durs : List (Nat × Time)) (msgs : List Msg)
    (s : CState) (tr : Transport) (t : Time) (cancelAt : Option Nat)
    (trace : List Cmd) (hinv : Inv cfg s tr trace) :
    Inv cfg (play_loop cfg durs msgs s tr t cancelAt).1
      (play_loop cfg durs msgs s tr t cancelAt).2.1
      (trace ++ (play_loop cfg durs msgs s tr t cancelAt).2.2.1) := by
  induction msgs generalizing s tr t cancelAt trace with
  | nil =>
    simp only [play_loop]
    refine ⟨hinv.1, hinv.2.1, ?_, hinv.2.2.2.1, hinv.2.2.2.2⟩
    intro c
    rw [List.append_nil]
    exact hinv.2.2.1 c
  | cons m rest ih =>
    simp only [play_loop]
    split
    · rw [List.append_nil]
      exact hinv
    · rcases hpm : process_msg cfg durs s tr m (t + m.time) with ⟨s1, tr1, cmds, raised⟩
      have hstep := inv_process_msg cfg durs s tr m (t + m.time) trace hinv
      rw [hpm] at hstep
      dsimp only at hstep
      obtain ⟨hinv1, hraised⟩ := hstep
      dsimp only
      rw [hraised]
      simp only [Bool.false_eq_true, if_false]
      rcases hrec : play_loop cfg durs rest s1 tr1 (t + m.time)
          (cancelAt.map fun n => n - 1) with ⟨s2, tr2, cmds2, t2, e2⟩
      have hr := ih s1 tr1 (t + m.time) (cancelAt.map fun n => n - 1) (trace ++ cmds) hinv1
      rw [hrec] at hr
      dsimp only at hr ⊢
      rw [← List.append_assoc]
      exact hr

lemma inv_update_leds_from (cfg : Config) (l : List Nat) (s : CState)
    (tr : Transport) (t : Time) (trace : List Cmd) (hinv : Inv cfg s tr trace)
    (hb : ∀ led ∈ l, led < cfg.num_leds) :
    Inv cfg (update_leds_from cfg l s tr t).1 (update_leds_from cfg l s tr t).2.1
      (trace ++ (update_leds_from cfg l s tr t).2.2.1) := by
  induction l generalizing s tr trace with
  | nil =>
    simp only [update_leds_from]
    refine ⟨hinv.1, hinv.2.1, ?_, hinv.2.2.2.1, hinv.2.2.2.2⟩
    intro c
    rw [List.append_nil]
    exact hinv.2.2.1 c
  | cons led rest ih =>
    simp only [update_leds_from]
    rcases hu : update_led cfg s tr (some led) t with ⟨s1, tr1, cmds, raised⟩
    have hstep := inv_update_led cfg s tr (some led) t trace hinv
      (fun l2 h => by cases h; exact hb led (List.mem_cons_self _ _))
    rw [hu] at hstep
    dsimp only at hstep
    obtain ⟨hinv1, hraised⟩ := hstep
    dsimp only
    rw [hraised]
    simp only [Bool.false_eq_true, if_false]
    rcases hrec : update_leds_from cfg rest s1 tr1 t with ⟨s2, tr2, cmds2, r2⟩
    have hr := ih s1 tr1 (trace ++ cmds) hinv1
      (fun led2 h => hb led2 (List.mem_cons_of_mem _ h))
    rw [hrec] at hr
    dsimp only at hr ⊢
    rw [← List.append_assoc]
    exact hr

lemma inv_drain_loop (cfg : Config) (n : Nat) (s : CState) (tr : Transport)
    (t : Time) (trace : List Cmd) (hinv : Inv cfg s tr trace) :
    Inv cfg (drain_loop cfg n s tr t).1 (drain_loop cfg n s tr t).2.1
      (trace ++ (drain_loop cfg n s tr t).2.2.1) := by
  induction n generalizing s tr t trace with
  | zero =>
    simp only [drain_loop]
    refine ⟨hinv.1, hinv.2.1, ?_, hinv.2.2.2.1, hinv.2.2.2.2⟩
    intro c
    rw [List.append_nil]
    exact hinv.2.2.1 c
  | succ n ih =>
    simp only [drain_loop]
    rcases hu : update_leds_from cfg (List.range cfg.num_leds) s tr (t + drain_tick)
      with ⟨s1, tr1, cmds, raised⟩
    have hstep := inv_update_leds_from cfg (List.range cfg.num_leds) s tr
      (t + drain_tick) trace hinv (fun led h => List.mem_range.mp h)
    have hraised := update_leds_from_none cfg (List.range cfg.num_leds) s tr
      (t + drain_tick) hinv.2.1
    rw [hu] at hstep hraised
    dsimp only at hstep hraised
    dsimp only
    rw [hraised.1]
    simp only [Bool.false_eq_true, if_false]
    rcases hrec : drain_loop cfg n s1 tr1 (t + drain_tick) with ⟨s2, tr2, cmds2, t2, e2⟩
    have hr := ih s1 tr1 (t + drain_tick) (trace ++ cmds) hstep
    rw [hrec] at hr
    dsimp only at hr ⊢
    rw [← List.append_assoc]
    exact hr

lemma cleanup_last_sent (cfg : Config) (s : CState) (tr : Transport)
    (trace : List Cmd) (hinv : Inv cfg s tr trace) (c : Nat) :
    last_sent (trace ++ (cleanup cfg s tr).2.2.1) c ≠ some true := by
  obtain ⟨hlen, hf, ht, hs, ho⟩ := hinv
  obtain ⟨hcmds, -, -⟩ := cleanup_cmds_none cfg s tr hf hs ho
  rw [hcmds, ls_append]
  have hall : ∀ cmd ∈ (List.range cfg.num_leds).filterMap
      (fun i => if s.led_states.getD i false then some (Cmd.mk false i) else none),
      cmd.isOn = false := by
    intro cmd hcmd
    obtain ⟨i, _, hfi⟩ := List.mem_filterMap.mp hcmd
    split at hfi
    · cases Option.some_inj.mp hfi
      rfl
    · cases hfi
  cases hls : last_sent ((List.range cfg.num_leds).filterMap
      (fun i => if s.led_states.getD i false then some (Cmd.mk false i) else none)) c with
  | some b =>
    have hb : b = false := by
      unfold last_sent at hls
      cases hgl : (((List.range cfg.num_leds).filterMap
          (fun i => if s.led_states.getD i false then some (Cmd.mk false i) else none)).filter
            fun cmd => cmd.index == c).getLast? with
      | none => rw [hgl] at hls; cases hls
      | some cmd =>
        rw [hgl] at hls
        have hmem := List.mem_of_mem_getLast? hgl
        have hoff := hall cmd (List.mem_filter.mp hmem).1
        have : cmd.isOn = b := Option.some_inj.mp hls
        rw [← this, hoff]
    rw [hb]
    intro hcon
    exact Bool.false_ne_true (Option.some_inj.mp hcon)
  | none =>
    intro hcon
    have hcon2 : last_sent trace c = some true := hcon
    have htc := ht c
    rw [hcon2] at htc
    have htrue : s.led_states.getD c false = true := htc.symm
    have hcl : c < s.led_states.length := by
      by_contra hge
      push_neg at hge
      rw [List.getD_eq_getElem?_getD, List.getElem?_eq_none (by omega)] at htrue
      cases htrue
    have hmemc : Cmd.mk false c ∈ (List.range cfg.num_leds).filterMap
        (fun i => if s.led_states.getD i false then some (Cmd.mk false i) else none) := by
      refine List.mem_filterMap.mpr ⟨c, List.mem_range.mpr (by rw [← hlen]; exact hcl), ?_⟩
      rw [if_pos htrue]
    have hfilter : (((List.range cfg.num_leds).filterMap
        (fun i => if s.led_states.getD i false then some (Cmd.mk false i) else none)).filter
          fun cmd => cmd.index == c) = [] := by
      unfold last_sent at hls
      cases hgl : (((List.range cfg.num_leds).filterMap
          (fun i => if s.led_states.getD i false then some (Cmd.mk false i) else none)).filter
            fun cmd => cmd.index == c).getLast? with
      | some cmd => rw [hgl] at hls; cases hls
      | none => exact List.getLast?_eq_none_iff.mp hgl
    have : Cmd.mk false c ∈ (((List.range cfg.num_leds).filterMap
        (fun i => if s.led_states.getD i false then some (Cmd.mk false i) else none)).filter
          fun cmd => cmd.index == c) :=
      List.mem_filter.mpr ⟨hmemc, by simp⟩
    rw [hfilter] at this
    cases this

lemma getD_replicate_false (n c : Nat) :
    (List.replicate n false).getD c false = false := by
  rw [List.getD_eq_getElem?_getD, List.getElem?_replicate]
  split <;> rfl

lemma initialize_serial_acquired (serOk : Bool) (cfg : Config)
    (hok : (initialize_serial serOk (initController cfg)).2 = true) :
    (initialize_serial serOk (initController cfg)).1.hasSer = true ∧
    (initialize_serial serOk (initController cfg)).1.serOpen = true ∧
    (initialize_serial serOk (initController cfg)).1.led_states =
      List.replicate cfg.num_leds false := by
  unfold initialize_serial initController at hok ⊢
  dsimp only at hok ⊢
  by_cases hp : cfg.serProvided = true
  · rw [if_pos hp]
    exact ⟨hp, hp, rfl⟩
  · rw [if_neg hp] at hok ⊢
    by_cases hk : serOk = true
    · rw [if_pos hk]
      exact ⟨rfl, rfl, rfl⟩
    · rw [if_neg hk] at hok
      cases hok

/-- Claim C2 counterexample: a session in which the final `OFF 0` write
raises reaches `Closed` (the teardown runs) with channel 0's last
transmitted state still `on` — the teardown consulted the tracked state
(already reset to off before the failed write) and so retransmitted
nothing, contradicting "the teardown forces every channel off regardless
of the computed state" and "after `Closed` every channel's last
transmitted state is off". -/
theorem C2_counterexample :
    (play_midi cfgW msgsW true true none (some 1)).cleanups = 1 ∧
    (play_midi cfgW msgsW true true none (some 1)).error = some Err.writeError ∧
    last_sent (play_midi cfgW msgsW true true none (some 1)).trace 0 = some true :=
  of_decide_eq_true (by with_unfolding_all rfl)

/-- Claim C2 as amended (drain completeness under a healthy transport): in
any session whose transport writes all succeed — whatever the
configuration, score, load/acquisition outcome, or cancellation point —
after the session ends no channel's last transmitted state is `on`:
the teardown sends `OFF` to exactly the channels whose tracked state is
on, and tracked state agrees with the last transmitted state throughout
`Playing` and `Draining`. -/
theorem C2_drain_completeness (cfg : Config) (msgs : List Msg)
    (loadOk serOk : Bool) (cancelAt : Option Nat) (c : Nat) :
    last_sent (play_midi cfg msgs loadOk serOk cancelAt none).trace c ≠ some true := by
  unfold play_midi
  rcases hinit : initialize_serial serOk (initController cfg) with ⟨s1, ok⟩
  dsimp only
  rw [hinit]
  dsimp only
  by_cases hok : ok = true
  · rw [hok]
    simp only [Bool.not_true, Bool.false_eq_true, if_false]
    cases loadOk with
    | false =>
      simp only [Bool.not_false, if_true]
      intro hcon
      cases hcon
    | true =>
      simp only [Bool.not_true, Bool.false_eq_true, if_false]
      have hfields := initialize_serial_acquired serOk cfg (by rw [hinit]; exact hok)
      rw [hinit] at hfields
      dsimp only at hfields
      have hinv0 : Inv cfg s1 { writes := 0, failAt := none } [] := by
        refine ⟨?_, rfl, ?_, hfields.1, hfields.2.1⟩
        · rw [hfields.2.2, List.length_replicate]
        · intro c2
          rw [hfields.2.2, getD_replicate_false]
          rfl
      rcases hpl : play_loop cfg (parse_midi_durations cfg msgs) msgs s1
          { writes := 0, failAt := none } 0 cancelAt with ⟨s2, tr2, cmds1, t1, err1⟩
      have hinv1 := inv_play_loop cfg (parse_midi_durations cfg msgs) msgs s1
        { writes := 0, failAt := none } 0 cancelAt [] hinv0
      rw [hpl] at hinv1
      dsimp only at hinv1
      rw [List.nil_append] at hinv1
      cases err1 with
      | none =>
        dsimp only
        rcases hdr : drain_loop cfg
            (drain_count t1 (t1 + values_max (List.map (fun kv => kv.2)
              (parse_midi_durations cfg msgs)))) s2 tr2 t1
          with ⟨s3, tr3, cmds2, t3, e3⟩
        have hinv2 := inv_drain_loop cfg
          (drain_count t1 (t1 + values_max (List.map (fun kv => kv.2)
            (parse_midi_durations cfg msgs)))) s2 tr2 t1 cmds1 hinv1
        rw [hdr] at hinv2
        dsimp only at hinv2
        rcases hcl : cleanup cfg s3 tr3 with ⟨s4, tr4, cmds3, craised⟩
        have hfin := cleanup_last_sent cfg s3 tr3 (cmds1 ++ cmds2) hinv2 c
        rw [hcl] at hfin
        dsimp only at hfin ⊢
        exact hfin
      | some e =>
        dsimp only
        rcases hcl : cleanup cfg s2 tr2 with ⟨s4, tr4, cmds3, craised⟩
        have hfin := cleanup_last_sent cfg s2 tr2 cmds1 hinv1 c
        rw [hcl] at hfin
        dsimp only at hfin ⊢
        rw [List.append_nil]
        exact hfin
  · rw [Bool.not_eq_true] at hok
    rw [hok]
    simp only [Bool.not_false, if_true]
    intro hcon
    cases hcon

/-- Witness for `C2_drain_completeness`: in the healthy two-message
session the last command for channel 0 is the `OFF 0` of the note-off,
and in particular it is not an `ON`. -/
theorem C2_drain_completeness_witness :
    last_sent (play_midi cfgW msgsW true true none none).trace 0 = some false ∧
    last_sent (play_midi cfgW msgsW true true none none).trace 0 ≠ some true :=
  ⟨of_decide_eq_true (by with_unfolding_all rfl),
    C2_drain_completeness cfgW msgsW true true none 0⟩

/-! ### Exit-path and transport-error lemmas -/

lemma initialize_serial_ok_of (serOk : Bool) (cfg : Config)
    (hser : cfg.serProvided = true ∨ serOk = true) :
    (initialize_serial serOk (initController cfg)).2 = true := by
  unfold initialize_serial initController
  dsimp only
  rcases hser with h | h
  · rw [if_pos h]
  · by_cases hp : cfg.serProvided = true
    · rw [if_pos hp]
    · rw [if_neg hp, if_pos h]

lemma initialize_serial_fail (cfg : Config) (hp : cfg.serProvided = false) :
    initialize_serial false (initController cfg) = (initController cfg, false) := by
  unfold initialize_serial initController
  dsimp only
  rw [hp]
  simp

/-- Claim C3 counterexample: with no caller-supplied transport, a session
whose score fails to load has already opened the serial port — the load
error is reported after the transport was acquired, and no teardown runs
on that path (the just-opened transport is left attached and open),
contradicting "before any resource is opened, so no teardown is needed
on that path". -/
theorem C3_counterexample :
    (play_midi defaultConfig msgsW false true none none).cleanups = 0 ∧
    (play_midi defaultConfig msgsW false true none none).state.hasSer = true ∧
    (play_midi defaultConfig msgsW false true none none).state.serOpen = true ∧
    (play_midi defaultConfig msgsW false true none none).error = some Err.loadError :=
  of_decide_eq_true (by with_unfolding_all rfl)

/-- Claim C3 as amended (exit-path discipline): a fatal score-load error
is reported before playback starts (no command is ever transmitted) but
*after* the transport is acquired, and no teardown runs on that path, so
the transport is left open; on every other post-load exit path — normal
completion, cancellation at any point, or an unhandled write error in
`Playing`/`Draining` — the teardown runs exactly once; a transport
acquisition failure aborts with no playback and no teardown. -/
theorem C3_exit_paths :
    (∀ (cfg : Config) (msgs : List Msg) (cancelAt failAt : Option Nat) (serOk : Bool),
      cfg.serProvided = true ∨ serOk = true →
      (play_midi cfg msgs false serOk cancelAt failAt).cleanups = 0 ∧
      (play_midi cfg msgs false serOk cancelAt failAt).trace = [] ∧
      (play_midi cfg msgs false serOk cancelAt failAt).error = some Err.loadError ∧
      (play_midi cfg msgs false serOk cancelAt failAt).state.hasSer = true ∧
      (play_midi cfg msgs false serOk cancelAt failAt).state.serOpen = true) ∧
    (∀ (cfg : Config) (msgs : List Msg) (cancelAt failAt : Option Nat) (serOk : Bool),
      cfg.serProvided = true ∨ serOk = true →
      (play_midi cfg msgs true serOk cancelAt failAt).cleanups = 1) ∧
    (∀ (cfg : Config) (msgs : List Msg) (cancelAt failAt : Option Nat),
      cfg.serProvided = false →
      (play_midi cfg msgs true false cancelAt failAt).cleanups = 0 ∧
      (play_midi cfg msgs true false cancelAt failAt).trace = [] ∧
      (play_midi cfg msgs true false cancelAt failAt).error = some Err.serError) := by
  refine ⟨?_, ?_, ?_⟩
  · intro cfg msgs cancelAt failAt serOk hser
    have hok := initialize_serial_ok_of serOk cfg hser
    have hfields := initialize_serial_acquired serOk cfg hok
    unfold play_midi
    rcases hinit : initialize_serial serOk (initController cfg) with ⟨s1, ok⟩
    rw [hinit] at hok hfields
    dsimp only at hok hfields
    dsimp only
    rw [hinit]
    dsimp only
    rw [hok]
    simp only [Bool.not_true, Bool.false_eq_true, if_false, Bool.not_false, if_true]
    exact ⟨by trivial, by trivial, by trivial, hfields.1, hfields.2.1⟩
  · intro cfg msgs cancelAt failAt serOk hser
    have hok := initialize_serial_ok_of serOk cfg hser
    unfold play_midi
    rcases hinit : initialize_serial serOk (initController cfg) with ⟨s1, ok⟩
    rw [hinit] at hok
    dsimp only at hok
    dsimp only
    rw [hinit]
    dsimp only
    rw [hok]
    simp only [Bool.not_true, Bool.false_eq_true, if_false]
  · intro cfg msgs cancelAt failAt hp
    unfold play_midi
    dsimp only
    rw [initialize_serial_fail cfg hp]
    dsimp only
    simp only [Bool.not_false, if_true]
    exact ⟨by trivial, by trivial, by trivial⟩

/-- Witness for `C3_exit_paths`: a load failure with an acquired
transport runs no teardown; a session that loads (here with both a
cancellation point and an injected write fault) runs teardown exactly
once; an acquisition failure runs no teardown. -/
theorem C3_exit_paths_witness :
    (defaultConfig.serProvided = true ∨ (true : Bool) = true) ∧
    (play_midi defaultConfig msgsW false true none none).cleanups = 0 ∧
    (play_midi cfgW msgsW true true (some 1) (some 0)).cleanups = 1 ∧
    (defaultConfig.serProvided = false ∧
      (play_midi defaultConfig msgsW true false none none).cleanups = 0) :=
  ⟨Or.inr rfl,
   (C3_exit_paths.1 defaultConfig msgsW none none true (Or.inr rfl)).1,
   C3_exit_paths.2.1 cfgW msgsW (some 1) (some 0) true (Or.inl rfl),
   ⟨rfl, (C3_exit_paths.2.2 defaultConfig msgsW none none rfl).1⟩⟩

lemma update_led_cmds_fail (cfg : Config) (s : CState) (tr : Transport)
    (led : Nat) (t : Time) (hfail : tr.failAt = some tr.writes)
    (hne : new_state_of cfg s led t ≠ s.led_states.getD led false) :
    (update_led cfg s tr (some led) t).2.2.2 = true ∧
    (update_led cfg s tr (some led) t).2.2.1 = [] := by
  have hbne : (new_state_of cfg s led t != s.led_states.getD led false) = true :=
    bne_iff_ne.mpr hne
  simp only [new_state_of] at hbne
  simp only [update_led, transport_write]
  rw [if_pos hbne]
  simp [hfail]

/-- Claim C7 counterexample: a failing `ON 0` write is not logged and
recovered — the exception escapes `play_midi` (`error = writeError`),
the second message is never processed (no command for channel 4 in the
trace; the only transmitted command is the teardown's `OFF 0`), even
though the internal state was updated as if the write had succeeded
(`led_states[0] = true`); the same session with a healthy transport
completes without error. -/
theorem C7_counterexample :
    (play_midi cfgW5 msgs7 true true none (some 0)).error = some Err.writeError ∧
    (play_midi cfgW5 msgs7 true true none (some 0)).trace = [⟨false, 0⟩] ∧
    (play_midi cfgW5 msgs7 true true none (some 0)).state.led_states.getD 0 false = true ∧
    (play_midi cfgW5 msgs7 true true none (some 0)).cleanups = 1 ∧
    (play_midi cfgW5 msgs7 true true none none).error = none ∧
    (play_midi cfgW5 msgs7 true true none none).trace =
      [⟨true, 0⟩, ⟨true, 4⟩, ⟨false, 0⟩, ⟨false, 4⟩] :=
  of_decide_eq_true (by with_unfolding_all rfl)

/-- Claim C7 as amended (transport-write errors): a failing `ser.write` in
`update_led` raises after the tracked channel state has already been
updated as if the write had succeeded — the command is not transmitted
and the exception propagates: the playback loop stops at that message
with a write error (remaining events are not processed; the `finally`
teardown still runs, per C3); a connection-level failure during
acquisition is fatal and aborts before `Playing` begins, with no
commands sent and no teardown needed. -/
theorem C7_transport_write_error :
    (∀ (cfg : Config) (s : CState) (tr : Transport) (led : Nat) (t : Time),
      led < s.led_states.length →
      tr.failAt = some tr.writes →
      new_state_of cfg s led t ≠ s.led_states.getD led false →
      (update_led cfg s tr (some led) t).2.2.2 = true ∧
      (update_led cfg s tr (some led) t).2.2.1 = [] ∧
      (update_led cfg s tr (some led) t).1.led_states.getD led false =
        new_state_of cfg s led t) ∧
    (∀ (cfg : Config) (durs : List (Nat × Time)) (msgs : List Msg) (s : CState)
      (tr : Transport) (t : Time) (cancelAt : Option Nat) (msg : Msg),
      cancelAt ≠ some 0 →
      (process_msg cfg durs s tr msg (t + msg.time)).2.2.2 = true →
      play_loop cfg durs (msg :: msgs) s tr t cancelAt =
        ((process_msg cfg durs s tr msg (t + msg.time)).1,
         (process_msg cfg durs s tr msg (t + msg.time)).2.1,
         (process_msg cfg durs s tr msg (t + msg.time)).2.2.1,
         t + msg.time, some Err.writeError)) ∧
    (∀ (cfg : Config) (msgs : List Msg) (cancelAt failAt : Option Nat),
      cfg.serProvided = false →
      (play_midi cfg msgs true false cancelAt failAt).error = some Err.serError ∧
      (play_midi cfg msgs true false cancelAt failAt).trace = [] ∧
      (play_midi cfg msgs true false cancelAt failAt).cleanups = 0) := by
  refine ⟨?_, ?_, ?_⟩
  · intro cfg s tr led t hlen hfail hne
    obtain ⟨h1, h2⟩ := update_led_cmds_fail cfg s tr led t hfail hne
    exact ⟨h1, h2, update_led_getD_self cfg s tr led t hlen⟩
  · intro cfg durs msgs s tr t cancelAt msg hcancel hraised
    simp only [play_loop]
    rw [if_neg hcancel]
    rcases hpm : process_msg cfg durs s tr msg (t + msg.time) with ⟨s1, tr1, cmds, raised⟩
    rw [hpm] at hraised
    dsimp only at hraised
    dsimp only
    rw [hraised]
    simp only [if_true]
  · intro cfg msgs cancelAt failAt hp
    unfold play_midi
    dsimp only
    rw [initialize_serial_fail cfg hp]
    dsimp only
    simp only [Bool.not_false, if_true]
    exact ⟨by trivial, by trivial, by trivial⟩

/-- Witness for `C7_transport_write_error`: at the failing write for
LED 0 the state is updated but nothing is transmitted; the playback loop
stops at that message; an acquisition failure yields `serError` with an
empty trace. -/
theorem C7_transport_write_error_witness :
    (0 < sW.led_states.length ∧
      (update_led cfgW sW { writes := 0, failAt := some 0 } (some 0) 0).2.2.2 = true ∧
      (update_led cfgW sW { writes := 0, failAt := some 0 } (some 0) 0).2.2.1 = [] ∧
      (update_led cfgW sW { writes := 0, failAt := some 0 } (some 0) 0).1.led_states.getD 0 false =
        new_state_of cfgW sW 0 0) ∧
    play_loop cfgW [] [⟨0, MsgType.note_on, 21, 64⟩] sW { writes := 0, failAt := some 0 } 0 none =
      ((process_msg cfgW [] sW { writes := 0, failAt := some 0 }
          ⟨0, MsgType.note_on, 21, 64⟩ (0 + (0 : Time))).1,
       (process_msg cfgW [] sW { writes := 0, failAt := some 0 }
          ⟨0, MsgType.note_on, 21, 64⟩ (0 + (0 : Time))).2.1,
       (process_msg cfgW [] sW { writes := 0, failAt := some 0 }
          ⟨0, MsgType.note_on, 21, 64⟩ (0 + (0 : Time))).2.2.1,
       0 + (0 : Time), some Err.writeError) ∧
    (play_midi defaultConfig msgsW true false none none).error = some Err.serError :=
  ⟨⟨by decide,
    C7_transport_write_error.1 cfgW sW { writes := 0, failAt := some 0 } 0 0
      (by decide) rfl (of_decide_eq_true (by with_unfolding_all rfl))⟩,
   C7_transport_write_error.2.1 cfgW [] [] sW
     { writes := 0, failAt := some 0 } 0 none ⟨0, MsgType.note_on, 21, 64⟩
     (by decide) (of_decide_eq_true (by with_unfolding_all rfl)),
   (C7_transport_write_error.2.2 defaultConfig msgsW none none rfl).1⟩

end MidiToLed
